import Mathlib

/-!
Verification of the cross-tracker migration reconciliation engine of the
helper-scripts repository (the gitlab/migration2gh family of scripts).
Each definition is a shallow embedding of the Python function named in its
doc comment; theorems settle the frozen claims about the spec.
-/

set_option autoImplicit false

namespace MigrationCore

/-! ## Paginated query client

Embedding of `paginated_api_call` (gitlab-relationship-mapper.py lines
158-243; the same helper appears in gitlab-milestones-mapper.py lines
141-226).  The mock endpoint is represented by the list of responses it
serves for successive page numbers; past the end of the list the endpoint
serves an empty 200 page, which is how a real collection ends.  Rate-limit
retries (status 429) never occur against the mock endpoint and are outside
the model. -/

/-- One HTTP response of the mock endpoint: a status code and the parsed
JSON body (the page's records). -/
structure ApiResponse (α : Type) where
  status : Nat
  body : List α
  deriving Repr, DecidableEq

/-- Embeds the `while True` loop of `paginated_api_call`: a non-200 page or
an empty page stops the walk; a page shorter than `per_page` is the last
page; otherwise the page is accumulated and the walk advances.  Returns the
accumulated records and the number of calls made. -/
def paginated_api_call {α : Type} (per_page : Nat) :
    List (ApiResponse α) → List α × Nat
  | [] => ([], 1)
  | r :: rest =>
    if r.status ≠ 200 then ([], 1)
    else if r.body.isEmpty then ([], 1)
    else if r.body.length < per_page then (r.body, 1)
    else
      let next := paginated_api_call per_page rest
      (r.body ++ next.1, next.2 + 1)

/-! ## Relationship evidence and deduplication

Embedding of the evidence records built by `get_issue_relationships`
(gitlab-relationship-mapper.py lines 307-499) and the dedup step at its end
(lines 487-499). -/

/-- One relationship evidence item, the dictionary appended to
`relationships` in `get_issue_relationships`. -/
structure Rel where
  source_issue_iid : Int
  source_issue_title : String
  target_issue_iid : Int
  target_issue_title : String
  relationship_type : String
  relationship_source : String
  target_project_id : String
  deriving Repr, DecidableEq, Inhabited

/-- The deduplication key `(source_issue_iid, target_issue_iid,
relationship_type)` of lines 490. -/
def relKey (r : Rel) : Int × Int × String :=
  (r.source_issue_iid, r.target_issue_iid, r.relationship_type)

/-- Insertion-ordered association list update, matching the behaviour of a
Python dict assignment: replacing a present key keeps its position, a new
key goes to the end. -/
def updateAssoc {K V : Type} [DecidableEq K] (k : K) (v : V) :
    List (K × V) → List (K × V)
  | [] => [(k, v)]
  | (k', v') :: rest =>
    if k' = k then (k, v) :: rest else (k', v') :: updateAssoc k v rest

/-- Lookup in the association list. -/
def lookupAssoc {K V : Type} [DecidableEq K] (k : K) :
    List (K × V) → Option V
  | [] => none
  | (k', v') :: rest => if k' = k then some v' else lookupAssoc k rest

/-- One iteration of the dedup loop (lines 489-493): the entry is written
when the key is new or when the new item has `api_link` provenance. -/
def dedupStep (m : List ((Int × Int × String) × Rel)) (r : Rel) :
    List ((Int × Int × String) × Rel) :=
  if (lookupAssoc (relKey r) m).isNone ∨ r.relationship_source = "api_link"
  then updateAssoc (relKey r) r m
  else m

/-- Embeds lines 487-495: fold the evidence list into the keyed dict and
take its values. -/
def dedupRelationships (rels : List Rel) : List Rel :=
  (rels.foldl dedupStep []).map Prod.snd

/-! ## Entity extraction (text and api-link evidence)

Embedding of the per-issue loop of `get_issue_relationships`
(gitlab-relationship-mapper.py lines 353-485).  The regex engine is
abstracted: for each text the model takes the list of
`(relationship type, captured issue number)` pairs that
`re.finditer` produced over the pattern table, in iteration order.
The processing of each match is translated from the source. -/

/-- One explicit link object returned by the GitLab links endpoint
(lines 371-383). -/
structure GlLink where
  iid : Int
  title : String
  project_id : Int
  link_type : String
  deriving Repr, DecidableEq

/-- A GitLab issue together with the mock responses of the links endpoint
and the regex matches found in its description and in each comment. -/
structure GlIssueData where
  iid : Int
  title : String
  links : List GlLink
  descMatches : List (String × Int)
  commentMatches : List (List (String × Int))
  deriving Repr

/-- Embeds lines 371-404: a relationship built from an explicit api link;
`target_project_id` is set when the link's project differs from the tail of
the url-encoded project id (line 397), and provenance is `api_link`. -/
def mkLinkRel (projTail : String) (iid : Int) (title : String)
    (l : GlLink) : Rel :=
  { source_issue_iid := iid
    source_issue_title := title
    target_issue_iid := l.iid
    target_issue_title := l.title
    relationship_type := l.link_type
    relationship_source := "api_link"
    target_project_id :=
      if toString l.project_id ≠ projTail then toString l.project_id
      else "" }

/-- Embeds lines 415-421 and 460-466: the target title of a text match is
looked up among the fetched issues, defaulting to the literal
"Unknown issue title". -/
def lookupTargetTitle (issues : List GlIssueData) (tgt : Int) : String :=
  match issues.find? (fun i => i.iid = tgt) with
  | some i => i.title
  | none => "Unknown issue title"

/-- Embeds lines 406-440 (and identically 452-485): relationships built
from the regex matches over one text, with provenance tag `srcTag`; a match
naming the issue's own number is skipped (lines 412-413 and 456-458), and
the text path never sets `target_project_id` (the variable stays `None`). -/
def relsFromMatches (issues : List GlIssueData) (iid : Int) (title : String)
    (srcTag : String) : List (String × Int) → List Rel
  | [] => []
  | m :: ms =>
    if m.2 = iid then relsFromMatches issues iid title srcTag ms
    else
      { source_issue_iid := iid
        source_issue_title := title
        target_issue_iid := m.2
        target_issue_title := lookupTargetTitle issues m.2
        relationship_type := m.1
        relationship_source := srcTag
        target_project_id := "" } :: relsFromMatches issues iid title srcTag ms

/-- The evidence one issue contributes, in source order: api links, then
description matches, then the matches of each comment. -/
def issueEvidence (projTail : String) (issues : List GlIssueData)
    (i : GlIssueData) : List Rel :=
  i.links.map (mkLinkRel projTail i.iid i.title)
    ++ relsFromMatches issues i.iid i.title "description_text" i.descMatches
    ++ (i.commentMatches.map
          (relsFromMatches issues i.iid i.title "comment_text")).flatten

/-- Embeds `get_issue_relationships` end to end: all evidence in issue
order, then the dedup of lines 487-495. -/
def get_issue_relationships (projTail : String)
    (issues : List GlIssueData) : List Rel :=
  dedupRelationships ((issues.map (issueEvidence projTail issues)).flatten)

/-! ## Models of the Python string primitives

The scripts use `int()`, `.lower()`, `.strip()`, `.lstrip()`,
`.startswith()` and the `in` substring test on ledger cells and comment
bodies.  These are modelled character-wise over `String.data` so that every
definition evaluates inside the kernel. -/

/-- Whether the first list starts the second, character by character. -/
def matchesAt : List Char → List Char → Bool
  | [], _ => true
  | _ :: _, [] => false
  | p :: ps, c :: cs => p = c && matchesAt ps cs

/-- Whether the first list occurs contiguously inside the second (the `in`
substring test of Python). -/
def containsSeq (pat : List Char) : List Char → Bool
  | [] => pat.isEmpty
  | c :: rest => matchesAt pat (c :: rest) || containsSeq pat rest

/-- Accumulate decimal digits; any non-digit character fails. -/
def pyDigitsGo : List Char → Nat → Option Nat
  | [], acc => some acc
  | c :: cs, acc =>
    if c.isDigit then pyDigitsGo cs (acc * 10 + (c.toNat - '0'.toNat))
    else none

/-- A non-empty all-digit sequence read as a number. -/
def pyDigits (ds : List Char) : Option Nat :=
  if ds.isEmpty then none else pyDigitsGo ds 0

/-- Models Python `int()` on the strings held by the ledgers: an optional
minus sign followed by decimal digits; anything else raises, modelled as
`none`. -/
def pyInt? (s : String) : Option Int :=
  match s.data with
  | '-' :: ds => (pyDigits ds).map (fun n => (-(n : Int)))
  | ds => (pyDigits ds).map (fun n => ((n : Int)))

/-- Models Python `str.lower()` (ASCII case folding). -/
def pyLower (s : String) : String := ⟨s.data.map Char.toLower⟩

/-- Models Python `str.strip()`: whitespace removed from both ends. -/
def pyStrip (s : String) : String :=
  ⟨((s.data.dropWhile Char.isWhitespace).reverse.dropWhile
      Char.isWhitespace).reverse⟩

/-- Models Python `str.lstrip()`. -/
def pyLStrip (s : String) : String := ⟨s.data.dropWhile Char.isWhitespace⟩

/-- Models Python `str.startswith`. -/
def pyStartsWith (s pat : String) : Bool := matchesAt pat.data s.data

/-! ## The mock GitHub target tracker

The apply phase's remote calls are modelled against an explicit tracker
state.  Reads (`GET`) consult the state; writes are recorded as `MutCall`
values and, as in the fixed mock, always succeed. -/

/-- A GitHub issue as seen by `get_issue_details`
(gitlab-relationship-mapper.py lines 631-674): its number, its global id,
and whether it is a pull request. -/
structure GhIssue where
  number : Int
  globalId : Int
  is_pull_request : Bool
  deriving Repr, DecidableEq

/-- An existing GitHub issue comment, as listed by
`get_github_issue_comments` (gitlab-comment-mapper.py lines 514-542). -/
structure GhComment where
  id : Int
  body : String
  deriving Repr, DecidableEq

/-- The mock target-tracker state: the issues of the repository and the
comments already present on each issue (keyed by issue number). -/
structure TrackerState where
  issues : List GhIssue
  comments : List (Int × GhComment)
  deriving Repr

/-- One mutating call against the target tracker. -/
inductive MutCall where
  | postDependency (owner repo : String) (blocked : Int) (blockingId : Int)
  | postComment (owner repo : String) (issue : Int) (body : String)
  | patchComment (owner repo : String) (commentId : Int) (body : String)
  | createMilestone (owner repo title : String)
  | patchIssueMilestone (owner repo : String) (issue : Int) (milestone : Int)
  deriving Repr, DecidableEq

/-- Embeds `get_issue_details` against the mock state: a 200 response for a
known number yields its global id and pull-request flag, anything else
yields `None`. -/
def get_issue_details (st : TrackerState) (n : Int) : Option (Int × Bool) :=
  (st.issues.find? (fun i => i.number = n)).map
    (fun i => (i.globalId, i.is_pull_request))

/-- Embeds `apply_issue_relationship` (gitlab-relationship-mapper.py lines
676-731): orient the dependency from the relationship type, resolve both
endpoints, fail when either is missing or is a pull request, otherwise POST
the `blocked_by` dependency (which succeeds against the mock).  Returns the
success flag and the mutating calls performed. -/
def apply_issue_relationship (st : TrackerState) (owner repo : String)
    (source_issue_number target_issue_number : Int)
    (relationship_type : String) : Bool × List MutCall :=
  let pair? :=
    if relationship_type = "is_blocked_by" ∨ relationship_type = "blocked_by"
        ∨ relationship_type = "depends_on" ∨ relationship_type = "relates_to"
    then some (source_issue_number, target_issue_number)
    else if relationship_type = "blocks"
    then some (target_issue_number, source_issue_number)
    else none
  match pair? with
  | none => (false, [])
  | some (blocked, blocking) =>
    match get_issue_details st blocked, get_issue_details st blocking with
    | some bd, some bg =>
      if bd.2 ∨ bg.2 then (false, [])
      else (true, [MutCall.postDependency owner repo blocked bg.1])
    | _, _ => (false, [])

/-- Embeds the `relationship_text_map` lookup of `add_comment_fallback`
(lines 749-761), defaulting to "Related to". -/
def relationship_text (relationship_type : String) : String :=
  if relationship_type = "relates_to" then "Related to"
  else if relationship_type = "duplicates" then "Duplicates"
  else if relationship_type = "is_duplicated_by" then "Is duplicated by"
  else if relationship_type = "duplicated_by" then "Is duplicated by"
  else if relationship_type = "child_of" then "Is a subtask of"
  else if relationship_type = "parent_of" then "Has subtask"
  else if relationship_type = "referenced" then "References"
  else if relationship_type = "referenced_by" then "Is referenced by"
  else if relationship_type = "linked" then "Is linked to"
  else "Related to"

/-- The machine-imported marker that `add_comment_fallback` embeds in every
comment body it posts (line 763). -/
def migrationMarker : String :=
  "*This relationship was automatically migrated from GitLab as a comment.*"

/-- The comment body built by `add_comment_fallback` (lines 762-763). -/
def relationship_comment_body (relationship_type : String)
    (target_issue_number : Int) : String :=
  relationship_text relationship_type ++ " #" ++ toString target_issue_number
    ++ "\n\n> " ++ migrationMarker

/-- Embeds `add_comment_fallback` (lines 734-777): the comment is posted to
the source issue unconditionally (the function never fetches or inspects
the existing comments of the issue) and the mock POST succeeds. -/
def add_comment_fallback (owner repo : String)
    (source_issue_number target_issue_number : Int)
    (relationship_type : String) : Bool × List MutCall :=
  (true, [MutCall.postComment owner repo source_issue_number
            (relationship_comment_body relationship_type target_issue_number)])

/-- A row of the relationships ledger, with the column set written by
`save_relationships_to_map` (lines 532-545); every cell is a string, as
`csv.DictReader` yields them. -/
structure RelRow where
  gitlab_source_issue_iid : String
  gitlab_target_issue_iid : String
  gitlab_relationship_type : String
  github_relationship_action : String
  relationship_source : String
  target_project_id : String
  gitlab_source_url : String
  gitlab_target_url : String
  github_source_url : String
  github_target_url : String
  target_url_valid : String
  status : String
  deriving Repr, DecidableEq

/-- Summary counts in the order returned by `apply_relationships_from_map`:
`(success_count, error_count, not_found_count, skipped_count)`. -/
abbrev Counts := Nat × Nat × Nat × Nat

/-- The per-row loop of `apply_relationships_from_map` (lines 883-924).
`int(target_issue_iid)` is evaluated for every row before the mode split
(line 893); a parse failure raises and is caught only by the function-level
handler (line 942), which returns `(0, 0, 0, 0)` — mutating calls already
performed are kept.  In live mode the action decides between the dependency
call and the comment fallback; in diagnostic mode the disposition is decided
from the action string alone. -/
def apply_relationships_go (diagnostic : Bool) (st : TrackerState)
    (owner repo : String) :
    List RelRow → Counts → List MutCall → Counts × List MutCall
  | [], c, calls => (c, calls)
  | row :: rest, (s, e, nf, sk), calls =>
    match pyInt? row.gitlab_target_issue_iid with
    | none => ((0, 0, 0, 0), calls)
    | some target_issue_number =>
      if diagnostic then
        if row.github_relationship_action = "Blocked by"
            ∨ row.github_relationship_action = "Blocking"
            ∨ row.github_relationship_action = "Comment"
        then apply_relationships_go diagnostic st owner repo rest
              (s + 1, e, nf, sk) calls
        else apply_relationships_go diagnostic st owner repo rest
              (s, e + 1, nf, sk) calls
      else
        match pyInt? row.gitlab_source_issue_iid with
        | none => ((0, 0, 0, 0), calls)
        | some source_issue_number =>
          let result :=
            if row.github_relationship_action = "Blocked by"
                ∨ row.github_relationship_action = "Blocking"
            then apply_issue_relationship st owner repo source_issue_number
                  target_issue_number row.gitlab_relationship_type
            else add_comment_fallback owner repo source_issue_number
                  target_issue_number row.gitlab_relationship_type
          if result.1 then
            apply_relationships_go diagnostic st owner repo rest
              (s + 1, e, nf, sk) (calls ++ result.2)
          else
            apply_relationships_go diagnostic st owner repo rest
              (s, e + 1, nf, sk) (calls ++ result.2)

/-- Embeds `apply_relationships_from_map` (lines 830-944) over an
already-read ledger: the loop starting from zero counts.  The ledger file
is never rewritten and row statuses are never consulted or updated by this
function. -/
def apply_relationships_from_map (diagnostic : Bool) (st : TrackerState)
    (owner repo : String) (rows : List RelRow) : Counts × List MutCall :=
  apply_relationships_go diagnostic st owner repo rows (0, 0, 0, 0) []

/-! ## Milestones: creating GitHub milestones from the ledger

Embedding of `create_github_milestones`
(gitlab-milestones-mapper.py lines 874-977). -/

/-- A row of the milestones ledger, column set of `save_milestones_to_map`
(lines 422-427). -/
structure MsRow where
  gitlab_id : String
  gitlab_iid : String
  gitlab_title : String
  gitlab_description : String
  gitlab_state : String
  gitlab_due_date : String
  github_number : String
  github_title : String
  github_state : String
  github_due_on : String
  status : String
  gitlab_source : String
  gitlab_source_name : String
  gitlab_web_url : String
  deriving Repr, DecidableEq

/-- The `state` field of the creation payload (line 486). -/
def milestonePayloadState (row : MsRow) : String :=
  if row.gitlab_state = "active" then "open" else "closed"

/-- The `due_on` field of the creation payload (lines 490-495): a date
without a time part gets "T23:59:59Z" appended; an empty due date is
omitted (modelled as the empty string). -/
def milestonePayloadDueOn (row : MsRow) : String :=
  if row.gitlab_due_date = "" then ""
  else if row.gitlab_due_date.data.contains 'T' then row.gitlab_due_date
  else row.gitlab_due_date ++ "T23:59:59Z"

/-- The result of `create_github_milestones`: summary counts, the mutating
calls made, the GitLab-id-to-GitHub-number map built, the rewritten ledger
(`none` when an exception reached the function-level handler, in which case
the file is left unchanged), and the returned success count. -/
structure MsResult where
  success : Nat
  errors : Nat
  skipped : Nat
  calls : List MutCall
  milestone_map : List (Int × Int)
  rows : Option (List MsRow)
  retval : Nat
  deriving Repr

/-- The per-row loop of `create_github_milestones` (lines 918-952), with
the mock creation always succeeding and numbering new milestones from
`nextNum` upward.  A row whose `status` is "created" is skipped without any
mutating call (lines 920-926); `int()` of a non-numeric id raises into the
function-level handler (lines 975-977), which returns 0 without rewriting
the file. -/
def create_github_milestones_go (owner repo : String) :
    List MsRow → Int → Nat × Nat × Nat → List MutCall → List (Int × Int) →
    List MsRow → MsResult
  | [], _, (s, e, sk), calls, mmap, done =>
    { success := s, errors := e, skipped := sk, calls := calls
      milestone_map := mmap, rows := some done, retval := s }
  | row :: rest, nextNum, (s, e, sk), calls, mmap, done =>
    if row.status = "created" then
      if row.gitlab_id ≠ "" ∧ row.github_number ≠ "" then
        match pyInt? row.gitlab_id, pyInt? row.github_number with
        | some g, some n =>
          create_github_milestones_go owner repo rest nextNum (s, e, sk + 1)
            calls (updateAssoc g n mmap) (done ++ [row])
        | _, _ =>
          { success := 0, errors := 0, skipped := 0, calls := calls
            milestone_map := mmap, rows := none, retval := 0 }
      else
        create_github_milestones_go owner repo rest nextNum (s, e, sk + 1)
          calls mmap (done ++ [row])
    else
      let row' : MsRow :=
        { row with
            github_number := toString nextNum
            github_title := row.gitlab_title
            github_state := milestonePayloadState row
            github_due_on := milestonePayloadDueOn row
            status := "created" }
      let calls' := calls ++ [MutCall.createMilestone owner repo row.gitlab_title]
      if row.gitlab_id ≠ "" then
        match pyInt? row.gitlab_id with
        | some g =>
          create_github_milestones_go owner repo rest (nextNum + 1)
            (s + 1, e, sk) calls' (updateAssoc g nextNum mmap) (done ++ [row'])
        | none =>
          { success := 0, errors := 0, skipped := 0, calls := calls'
            milestone_map := mmap, rows := none, retval := 0 }
      else
        create_github_milestones_go owner repo rest (nextNum + 1)
          (s + 1, e, sk) calls' mmap (done ++ [row'])

/-- Embeds `create_github_milestones` over an already-read ledger, with the
mock tracker assigning milestone numbers from `nextNum`. -/
def create_github_milestones (owner repo : String) (nextNum : Int)
    (rows : List MsRow) : MsResult :=
  create_github_milestones_go owner repo rows nextNum (0, 0, 0) [] [] []

/-! ## Milestones: applying milestones to issues

Embedding of the per-issue loop of `map_gitlab_to_github_issues`
(gitlab-milestones-mapper.py lines 618-712), the milestones applier whose
diagnostic branch is at lines 684-697. -/

/-- A GitLab issue as consumed by `map_gitlab_to_github_issues`: its iid,
title, and the id and title of its milestone when it has one. -/
structure GlIssueM where
  iid : Int
  title : String
  milestone : Option (Int × String)
  deriving Repr

/-- Embeds `get_github_issue` (gitlab-milestones-mapper.py lines 522-564)
against the mock state: a 200 response for a known number yields the
issue, anything else yields `None`. -/
def get_github_issue (st : TrackerState) (n : Int) : Option GhIssue :=
  st.issues.find? (fun i => i.number = n)

/-- The per-issue loop of `map_gitlab_to_github_issues` (lines 649-699):
an issue without a milestone, without a milestone mapping, or without a
GitHub issue of the same number counts as not-found in both modes; then
diagnostic mode counts a would-update with no call (lines 685-687) while
live mode performs the milestone PATCH, which succeeds against the mock
(lines 689-696).  Counts are `(success, error, not_found)`. -/
def map_gitlab_to_github_issues_go (diagnostic : Bool) (st : TrackerState)
    (owner repo : String) (milestone_map : List (Int × Int)) :
    List GlIssueM → Nat × Nat × Nat → List MutCall →
    (Nat × Nat × Nat) × List MutCall
  | [], c, calls => (c, calls)
  | issue :: rest, (s, e, nf), calls =>
    match issue.milestone with
    | none =>
      map_gitlab_to_github_issues_go diagnostic st owner repo milestone_map
        rest (s, e, nf + 1) calls
    | some ms =>
      match lookupAssoc ms.1 milestone_map with
      | none =>
        map_gitlab_to_github_issues_go diagnostic st owner repo milestone_map
          rest (s, e, nf + 1) calls
      | some github_milestone_number =>
        match get_github_issue st issue.iid with
        | none =>
          map_gitlab_to_github_issues_go diagnostic st owner repo
            milestone_map rest (s, e, nf + 1) calls
        | some _ =>
          if diagnostic then
            map_gitlab_to_github_issues_go diagnostic st owner repo
              milestone_map rest (s + 1, e, nf) calls
          else
            map_gitlab_to_github_issues_go diagnostic st owner repo
              milestone_map rest (s + 1, e, nf)
              (calls ++ [MutCall.patchIssueMilestone owner repo issue.iid
                github_milestone_number])

/-- Embeds `map_gitlab_to_github_issues` over the fetched issues and the
already-built milestone map, starting from zero counts. -/
def map_gitlab_to_github_issues (diagnostic : Bool) (st : TrackerState)
    (owner repo : String) (milestone_map : List (Int × Int))
    (gitlab_issues : List GlIssueM) : (Nat × Nat × Nat) × List MutCall :=
  map_gitlab_to_github_issues_go diagnostic st owner repo milestone_map
    gitlab_issues (0, 0, 0) []

/-! ## Target matchers -/

/-- The effect of the two matching passes of `apply_milestones_to_issues`
(gitlab-milestones-mapper.py lines 798-823) on one GitLab milestone title:
the first pass takes the first GitHub milestone with exactly equal title;
a milestone already mapped is skipped by the second pass, which otherwise
takes the first case-insensitive title match.  Targets are
`(number, title)` pairs in listing order. -/
def milestone_title_match (title : String)
    (targets : List (Int × String)) : Option Int :=
  match targets.find? (fun t => t.2 = title) with
  | some t => some t.1
  | none =>
    (targets.find? (fun t => pyLower t.2 = pyLower title)).map (fun t => t.1)

/-- The matching rule of `map_gitlab_to_github_issues`
(gitlab-comment-mapper.py lines 637-647): the first GitHub issue whose
lowercased, stripped title equals the lowercased, stripped GitLab title. -/
def issue_title_match (gitlab_title : String)
    (github_issues : List (Int × String)) : Option Int :=
  (github_issues.find?
      (fun g => pyStrip (pyLower gitlab_title) = pyStrip (pyLower g.2))).map
    (fun g => g.1)

/-! ## Comment nesting (the second apply path of the comment mapper) -/

/-- The footer `apply_nesting_to_issues` searches for in existing GitHub
comments to recognise an imported comment (gitlab-comment-mapper.py line
754). -/
def expected_footer (author created_at : String) : String :=
  "*Imported from GitLab comment by @" ++ author ++ " on " ++ created_at ++ "*"

/-- Embeds the matching loop of lines 756-762: the first existing GitHub
comment whose body contains the footer. -/
def find_imported_comment (footer : String)
    (existing : List GhComment) : Option GhComment :=
  existing.find? (fun c => containsSeq footer.data c.body.data)

/-- Outcome of processing one reply in `apply_nesting_to_issues`. -/
inductive ReplyOutcome where
  | notMatched
  | parentMissing
  | alreadyQuoted
  | updated
  deriving Repr, DecidableEq

/-- The quoted body built at lines 809-810. -/
def nesting_new_body (parent_body reply_body : String) : String :=
  "> " ++ String.intercalate "\n> " (parent_body.splitOn "\n")
    ++ "\n\n" ++ reply_body

/-- Embeds the per-reply logic of `apply_nesting_to_issues` (lines
774-824), given the lookup results for the reply's and its parent's GitHub
comments: an unmatched reply is ignored, a missing parent is an error, a
reply whose body already starts with a quote is skipped with no call, and
otherwise the comment is updated (live) or only reported (diagnostic). -/
def process_reply (diagnostic : Bool) (owner repo : String) :
    Option GhComment → Option GhComment → ReplyOutcome × List MutCall
  | none, _ => (ReplyOutcome.notMatched, [])
  | some _, none => (ReplyOutcome.parentMissing, [])
  | some rc, some pc =>
    if pyStartsWith (pyLStrip rc.body) ">" then (ReplyOutcome.alreadyQuoted, [])
    else if diagnostic then (ReplyOutcome.updated, [])
    else (ReplyOutcome.updated,
      [MutCall.patchComment owner repo rc.id (nesting_new_body pc.body rc.body)])

/-! ## The ledger file format

The ledger is written with `csv.DictWriter` (QUOTE_MINIMAL, delimiter `,`,
quotechar `"`, line terminator CRLF) and read back with `csv.DictReader`;
see `save_relationships_to_map` (gitlab-relationship-mapper.py lines
549-622), the rewrite in `create_github_milestones`
(gitlab-milestones-mapper.py lines 954-958) and the rewrite in
`apply_nesting_to_issues` (gitlab-comment-mapper.py lines 826-833).  The
format is modelled over `List Char`: rows are lists of fields, a file is
the header row followed by the data rows. -/

/-- Whether a field must be quoted under QUOTE_MINIMAL: it contains the
delimiter, the quote character, or a newline character. -/
def csvNeedsQuote (c : Char) : Bool :=
  c = ',' || c = '"' || c = '\n' || c = '\r'

/-- Double every quote character, the CSV escape. -/
def csvEscape : List Char → List Char
  | [] => []
  | c :: cs => if c = '"' then '"' :: '"' :: csvEscape cs else c :: csvEscape cs

/-- Serialise one field, quoting exactly when needed. -/
def csvEncodeField (f : List Char) : List Char :=
  if f.any csvNeedsQuote then '"' :: (csvEscape f ++ ['"']) else f

/-- Serialise one row, comma-separated. -/
def csvEncodeRow : List (List Char) → List Char
  | [] => []
  | [f] => csvEncodeField f
  | f :: fs => csvEncodeField f ++ ',' :: csvEncodeRow fs

/-- Serialise a file: every row is followed by the CRLF terminator. -/
def csvEncodeFile (rows : List (List (List Char))) : List Char :=
  rows.foldr (fun r acc => csvEncodeRow r ++ '\r' :: '\n' :: acc) []

/-- The CSV reading state machine of the `csv` module: `inQ` says whether
the head of the input is inside a quoted field, `f` is the current field,
`r` the fields of the current record, `acc` the finished records.  Doubled
quotes inside a quoted field decode to one quote; a comma outside quotes
ends the field; CRLF or LF outside quotes ends the record; end of input
flushes a pending record unless nothing is pending (the trailing line
terminator).  The csv module sees the stream only after the text-mode
newline translation performed in `ledgerLoad`. -/
def csvParseAux : Bool → List Char → List (List Char) →
    List (List (List Char)) → List Char → List (List (List Char))
  | true, f, r, acc, [] => acc ++ [r ++ [f]]
  | true, f, r, acc, '"' :: '"' :: cs => csvParseAux true (f ++ ['"']) r acc cs
  | true, f, r, acc, '"' :: cs => csvParseAux false f r acc cs
  | true, f, r, acc, c :: cs => csvParseAux true (f ++ [c]) r acc cs
  | false, f, r, acc, [] =>
    if f.isEmpty ∧ r.isEmpty then acc else acc ++ [r ++ [f]]
  | false, f, r, acc, ',' :: cs => csvParseAux false [] (r ++ [f]) acc cs
  | false, f, r, acc, '"' :: cs => csvParseAux true f r acc cs
  | false, f, r, acc, '\n' :: cs => csvParseAux false [] [] (acc ++ [r ++ [f]]) cs
  | false, f, r, acc, '\r' :: '\n' :: cs =>
    csvParseAux false [] [] (acc ++ [r ++ [f]]) cs
  | false, f, r, acc, c :: cs => csvParseAux false (f ++ [c]) r acc cs

/-- Parse a whole file into its records. -/
def csvParseFile (cs : List Char) : List (List (List Char)) :=
  csvParseAux false [] [] [] cs

/-- Models Python's universal-newlines translation of a text-mode read:
every CRLF pair and every lone CR becomes LF.  All ledger *reads* in the
repository open the file without `newline=''`
(gitlab-relationship-mapper.py lines 794, 869 and 1077,
gitlab-milestones-mapper.py line 910, gitlab-comment-mapper.py line 688),
so this translation happens before the csv module parses the stream —
including inside quoted fields. -/
def univNewlines : List Char → List Char
  | [] => []
  | '\r' :: '\n' :: cs => '\n' :: univNewlines cs
  | '\r' :: cs => '\n' :: univNewlines cs
  | c :: cs => c :: univNewlines cs

/-- Embeds the ledger `save`: the writers open with `newline=''` and
`csv.DictWriter` emits `writeheader()` followed by `writerows(rows)` with
the given column order and CRLF terminators, written verbatim. -/
def ledgerSave (headers : List (List Char))
    (rows : List (List (List Char))) : List Char :=
  csvEncodeFile (headers :: rows)

/-- Embeds the ledger `load` with `csv.DictReader` over a text-mode read
without `newline=''`: the raw bytes go through the universal-newlines
translation first, then the csv parser; the first record is the header
row, the rest are the data rows. -/
def ledgerLoad (cs : List Char) :
    List (List Char) × List (List (List Char)) :=
  match csvParseFile (univNewlines cs) with
  | [] => ([], [])
  | h :: rs => (h, rs)

/-! ## Projections and concrete example inputs used by the theorems -/

/-- The repository a mutating call is addressed to. -/
def mutCallRepo : MutCall → String × String
  | MutCall.postDependency o r _ _ => (o, r)
  | MutCall.postComment o r _ _ => (o, r)
  | MutCall.patchComment o r _ _ => (o, r)
  | MutCall.createMilestone o r _ => (o, r)
  | MutCall.patchIssueMilestone o r _ _ => (o, r)

/-- A relationship ledger row already in the terminal applied state. -/
def demoAppliedRow : RelRow :=
  { gitlab_source_issue_iid := "1", gitlab_target_issue_iid := "2"
    gitlab_relationship_type := "relates_to"
    github_relationship_action := "Comment"
    relationship_source := "api_link", target_project_id := ""
    gitlab_source_url := "", gitlab_target_url := ""
    github_source_url := "", github_target_url := ""
    target_url_valid := "not_checked", status := "applied" }

/-- A pending comment-action relationship row. -/
def demoPendingRow : RelRow := { demoAppliedRow with status := "pending" }

/-- A row whose target iid is not a number (a malformed ledger row). -/
def demoBadRow : RelRow :=
  { demoPendingRow with gitlab_target_issue_iid := "x" }

/-- A pending dependency-action row (`blocks`, applied as `Blocking`). -/
def demoBlockingRow : RelRow :=
  { demoPendingRow with
      gitlab_relationship_type := "blocks"
      github_relationship_action := "Blocking" }

/-- A row flagged as cross-project by a non-empty `target_project_id`. -/
def demoCrossRow : RelRow := { demoPendingRow with target_project_id := "77" }

/-- A tracker state whose issue #2 is a pull request. -/
def demoTrackerPR : TrackerState :=
  { issues := [⟨1, 101, false⟩, ⟨2, 102, true⟩], comments := [] }

/-- A tracker state where issue #1 already carries the marker comment a
previous apply run of `demoPendingRow` would have posted. -/
def demoTrackerMarker : TrackerState :=
  { issues := [⟨1, 101, false⟩, ⟨2, 102, false⟩]
    comments := [(1, ⟨500, relationship_comment_body "relates_to" 2⟩)] }

/-- A milestones ledger row already in the terminal created state. -/
def demoMsCreatedRow : MsRow :=
  { gitlab_id := "10", gitlab_iid := "1", gitlab_title := "v1"
    gitlab_description := "d", gitlab_state := "active"
    gitlab_due_date := "", github_number := "3", github_title := "v1"
    github_state := "open", github_due_on := "", status := "created"
    gitlab_source := "project", gitlab_source_name := "ns/p"
    gitlab_web_url := "u" }

/-- Issue #42 whose description mentions itself and #7, and whose comment
mentions itself. -/
def demoIssue42 : GlIssueData :=
  { iid := 42, title := "t", links := []
    descMatches := [("relates_to", 42), ("blocks", 7)]
    commentMatches := [[("duplicates", 42)]] }

/-- GitHub milestones offering a case-insensitive match before an exact
one. -/
def demoTargets : List (Int × String) :=
  [(1, "FIX LOGIN BUG"), (2, "Fix login bug")]

/-- Two evidence items for the same (7, 12, blocks) key, text-derived
first. -/
def demoEvidence : List Rel :=
  [{ source_issue_iid := 7, source_issue_title := "a"
     target_issue_iid := 12, target_issue_title := "b"
     relationship_type := "blocks"
     relationship_source := "description_text", target_project_id := "" },
   { source_issue_iid := 7, source_issue_title := "a"
     target_issue_iid := 12, target_issue_title := "b"
     relationship_type := "blocks"
     relationship_source := "api_link", target_project_id := "" }]

/-- The api-link evidence item of `demoEvidence`. -/
def demoApiSurvivor : Rel :=
  { source_issue_iid := 7, source_issue_title := "a"
    target_issue_iid := 12, target_issue_title := "b"
    relationship_type := "blocks"
    relationship_source := "api_link", target_project_id := "" }

/-- The only relationship extracted from `demoIssue42`: the self-references
are discarded, the mention of #7 survives. -/
def demoBlocksRel : Rel :=
  { source_issue_iid := 42, source_issue_title := "t"
    target_issue_iid := 7, target_issue_title := "Unknown issue title"
    relationship_type := "blocks"
    relationship_source := "description_text", target_project_id := "" }

/-- A two-column ledger header. -/
def demoCsvHeaders : List (List Char) := [['c', 'o', 'l', 'A'], ['c', 'o', 'l', 'B']]

/-- Ledger rows exercising quoting (comma, quote, newline) and empty
optional fields, with no carriage return in any field. -/
def demoCsvRows : List (List (List Char)) :=
  [[['x', ',', 'y'], ['s', '"', 'q', '"', '\n', 't']], [[], ['p']]]

/-- A ledger row whose first field contains a CRLF sequence. -/
def demoCrRows : List (List (List Char)) :=
  [[['x', '\r', '\n', 'y'], ['z']]]

/-- What the text-mode read gives back for `demoCrRows`: the CRLF inside
the quoted field has been translated to LF. -/
def demoCrRowsLoaded : List (List (List Char)) :=
  [[['x', '\n', 'y'], ['z']]]

/-- A GitLab issue carrying milestone 10, matching GitHub issue #1 of
`demoTrackerPR`. -/
def demoGlIssueM : GlIssueM :=
  { iid := 1, title := "t1", milestone := some (10, "v1") }

/-! ## Helper lemmas about the apply loop -/

lemma apply_go_diag_state (st st' : TrackerState) (o r : String) :
    ∀ (rows : List RelRow) (acc : Counts) (calls : List MutCall),
      apply_relationships_go true st o r rows acc calls =
        apply_relationships_go true st' o r rows acc calls := by
  intro rows
  induction rows with
  | nil => intro acc calls; rfl
  | cons row rest ih =>
    intro acc calls
    obtain ⟨s, e, nf, sk⟩ := acc
    simp only [apply_relationships_go]
    cases pyInt? row.gitlab_target_issue_iid with
    | none => rfl
    | some tn =>
      by_cases ha : row.github_relationship_action = "Blocked by"
          ∨ row.github_relationship_action = "Blocking"
          ∨ row.github_relationship_action = "Comment"
      · simp [if_pos ha, ih]
      · simp [if_neg ha, ih]

lemma apply_go_diag_calls (st : TrackerState) (o r : String) :
    ∀ (rows : List RelRow) (acc : Counts) (calls : List MutCall),
      (apply_relationships_go true st o r rows acc calls).2 = calls := by
  intro rows
  induction rows with
  | nil => intro acc calls; rfl
  | cons row rest ih =>
    intro acc calls
    obtain ⟨s, e, nf, sk⟩ := acc
    simp only [apply_relationships_go]
    cases pyInt? row.gitlab_target_issue_iid with
    | none => rfl
    | some tn =>
      by_cases ha : row.github_relationship_action = "Blocked by"
          ∨ row.github_relationship_action = "Blocking"
          ∨ row.github_relationship_action = "Comment"
      · simp [if_pos ha, ih]
      · simp [if_neg ha, ih]

/-! ## C8: pagination termination -/

/-- C8: for a mock endpoint serving full (status-200) pages of exactly the
requested page size followed by one final shorter or empty page, the
paginated client terminates, makes exactly one call per page, and returns
the concatenation of all pages; an empty final page simply ends the walk. -/
theorem claim_C8 {α : Type} (per_page : Nat) (hpp : 0 < per_page)
    (ps : List (ApiResponse α)) (q : ApiResponse α)
    (hps : ∀ p ∈ ps, p.status = 200 ∧ p.body.length = per_page)
    (hq : q.status = 200) (hql : q.body.length < per_page) :
    paginated_api_call per_page (ps ++ [q]) =
      (((ps ++ [q]).map ApiResponse.body).flatten, ps.length + 1) := by
  induction ps with
  | nil =>
    by_cases hb : q.body.isEmpty
    · have hbe : q.body = [] := List.isEmpty_iff.mp hb
      simp [paginated_api_call, hq, hb, hbe]
    · simp [paginated_api_call, hq, hb, hql]
  | cons p ps ih =>
    have hp := hps p (List.mem_cons_self p ps)
    have hlen : p.body.length = per_page := hp.2
    have hne : ¬ p.body.isEmpty := by
      cases hbody : p.body with
      | nil => rw [hbody] at hlen; simp at hlen; omega
      | cons a l => simp [hbody]
    have hnlt : ¬ p.body.length < per_page := by omega
    have ih' := ih (fun x hx => hps x (List.mem_cons_of_mem p hx))
    simp [paginated_api_call, hp.1, hne, hnlt, ih']

/-- C8 witness: pages of sizes 100, 100, 37 at page size 100 terminate
after exactly 3 calls with 237 records. -/
theorem claim_C8_witness :
    (paginated_api_call 100 [⟨200, List.range 100⟩, ⟨200, List.range 100⟩,
        ⟨200, (List.range 37 : List Nat)⟩]).2 = 3 ∧
      (paginated_api_call 100 [⟨200, List.range 100⟩, ⟨200, List.range 100⟩,
        ⟨200, (List.range 37 : List Nat)⟩]).1.length = 237 := by
  have h := claim_C8 (α := Nat) 100 (by omega)
    [⟨200, List.range 100⟩, ⟨200, List.range 100⟩] ⟨200, List.range 37⟩
    (by
      intro p hp
      rcases List.mem_cons.mp hp with h1 | h2
      · subst h1; exact ⟨rfl, by simp⟩
      · rcases List.mem_cons.mp h2 with h3 | h4
        · subst h3; exact ⟨rfl, by simp⟩
        · simp at h4)
    rfl (by simp)
  have heq : ([⟨200, List.range 100⟩, ⟨200, List.range 100⟩] :
      List (ApiResponse Nat)) ++ [⟨200, List.range 37⟩] =
      [⟨200, List.range 100⟩, ⟨200, List.range 100⟩, ⟨200, List.range 37⟩] := rfl
  rw [heq] at h
  rw [h]
  constructor
  · rfl
  · simp

/-! ## C5: diagnostic parity (corrected) -/

/-- C5 counterexample: over a fixed mocked tracker whose issue #2 is a pull
request, the dependency row `demoBlockingRow` gets disposition would-apply
(success) in diagnostic mode but failed (error) in a live run, so
diagnostic and live dispositions are not the same. -/
theorem claim_C5_counterexample :
    (apply_relationships_from_map true demoTrackerPR "o" "r"
        [demoBlockingRow]).1 = (1, 0, 0, 0) ∧
      (apply_relationships_from_map false demoTrackerPR "o" "r"
        [demoBlockingRow]).1 = (0, 1, 0, 0) := by
  constructor
  · rfl
  · rfl

lemma msmap_go_parity (st : TrackerState) (o r : String)
    (mmap : List (Int × Int)) :
    ∀ (issues : List GlIssueM) (c : Nat × Nat × Nat)
      (callsA callsB : List MutCall),
      (map_gitlab_to_github_issues_go true st o r mmap issues c callsA).1
        = (map_gitlab_to_github_issues_go false st o r mmap issues c
            callsB).1
      ∧ (map_gitlab_to_github_issues_go true st o r mmap issues c
          callsA).2 = callsA := by
  intro issues
  induction issues with
  | nil => intro c cA cB; exact ⟨rfl, rfl⟩
  | cons issue rest ih =>
    intro c cA cB
    obtain ⟨s, e, nf⟩ := c
    cases hms : issue.milestone with
    | none =>
      simp only [map_gitlab_to_github_issues_go, hms]
      exact ih (s, e, nf + 1) cA cB
    | some ms =>
      cases hlk : lookupAssoc ms.1 mmap with
      | none =>
        simp only [map_gitlab_to_github_issues_go, hms, hlk]
        exact ih (s, e, nf + 1) cA cB
      | some gm =>
        cases hgi : get_github_issue st issue.iid with
        | none =>
          simp only [map_gitlab_to_github_issues_go, hms, hlk, hgi]
          exact ih (s, e, nf + 1) cA cB
        | some gh =>
          simp only [map_gitlab_to_github_issues_go, hms, hlk, hgi,
            if_true, Bool.false_eq_true, if_false]
          exact ih (s + 1, e, nf) cA
            (cB ++ [MutCall.patchIssueMilestone o r issue.iid gm])

/-- C5 amended: diagnostic mode of the relationship applier never consults
the target tracker state and performs no mutating call; its per-record
disposition is a function of the ledger row alone — would-apply exactly
when the row's `github_relationship_action` is "Blocked by", "Blocking" or
"Comment" (and the target iid parses), error otherwise — so it agrees with
a live run only when the live calls would succeed.  The milestones applier
`map_gitlab_to_github_issues` does satisfy per-record parity: its
diagnostic run performs no mutating call and reports exactly the counts of
a live run whose PATCH calls succeed, since both modes share the
no-milestone / no-mapping / no-GitHub-issue checks and diverge only at the
would-update-vs-PATCH step. -/
theorem claim_C5 :
    (∀ (st st' : TrackerState) (o r : String) (rows : List RelRow),
        apply_relationships_from_map true st o r rows =
          apply_relationships_from_map true st' o r rows)
    ∧ (∀ (st : TrackerState) (o r : String) (rows : List RelRow),
        (apply_relationships_from_map true st o r rows).2 = [])
    ∧ (∀ (st : TrackerState) (o r : String) (row : RelRow),
        (apply_relationships_from_map true st o r [row]).1 =
          match pyInt? row.gitlab_target_issue_iid with
          | none => (0, 0, 0, 0)
          | some _ =>
            if row.github_relationship_action = "Blocked by"
                ∨ row.github_relationship_action = "Blocking"
                ∨ row.github_relationship_action = "Comment"
            then (1, 0, 0, 0) else (0, 1, 0, 0))
    ∧ (∀ (st : TrackerState) (o r : String) (mmap : List (Int × Int))
        (issues : List GlIssueM),
        (map_gitlab_to_github_issues true st o r mmap issues).1 =
          (map_gitlab_to_github_issues false st o r mmap issues).1
        ∧ (map_gitlab_to_github_issues true st o r mmap issues).2 = []) := by
  refine ⟨?_, ?_, ?_, ?_⟩
  · intro st st' o r rows
    exact apply_go_diag_state st st' o r rows (0, 0, 0, 0) []
  · intro st o r rows
    exact apply_go_diag_calls st o r rows (0, 0, 0, 0) []
  · intro st o r row
    simp only [apply_relationships_from_map, apply_relationships_go]
    cases pyInt? row.gitlab_target_issue_iid with
    | none => rfl
    | some tn =>
      by_cases ha : row.github_relationship_action = "Blocked by"
          ∨ row.github_relationship_action = "Blocking"
          ∨ row.github_relationship_action = "Comment"
      · simp [if_pos ha, apply_relationships_go]
      · simp [if_neg ha, apply_relationships_go]
  · intro st o r mmap issues
    exact msmap_go_parity st o r mmap issues (0, 0, 0) [] []

/-- C5 witness: the amended characterisation evaluated on concrete inputs —
the dependency row for the relationship path, and a single
milestone-carrying issue for the milestones path, where the live run would
update one issue and the diagnostic run reports the same counts with no
call. -/
theorem claim_C5_witness :
    (apply_relationships_from_map true demoTrackerPR "o" "r"
        [demoBlockingRow]).2 = [] ∧
      (apply_relationships_from_map true demoTrackerPR "o" "r"
        [demoBlockingRow]).1 = (1, 0, 0, 0) ∧
      (map_gitlab_to_github_issues true demoTrackerPR "o" "r"
        [(10, 3)] [demoGlIssueM]).1 =
        (map_gitlab_to_github_issues false demoTrackerPR "o" "r"
          [(10, 3)] [demoGlIssueM]).1 ∧
      (map_gitlab_to_github_issues true demoTrackerPR "o" "r"
        [(10, 3)] [demoGlIssueM]).2 = [] ∧
      (map_gitlab_to_github_issues false demoTrackerPR "o" "r"
        [(10, 3)] [demoGlIssueM]).1 = (1, 0, 0) := by
  refine ⟨claim_C5.2.1 demoTrackerPR "o" "r" [demoBlockingRow], ?_, ?_, ?_,
    by decide⟩
  · have h := claim_C5.2.2.1 demoTrackerPR "o" "r" demoBlockingRow
    rw [h]
    rfl
  · exact (claim_C5.2.2.2 demoTrackerPR "o" "r" [(10, 3)] [demoGlIssueM]).1
  · exact (claim_C5.2.2.2 demoTrackerPR "o" "r" [(10, 3)] [demoGlIssueM]).2

/-! ## C6: failure isolation (corrected) -/

lemma apply_go_live_totals (st : TrackerState) (o r : String) :
    ∀ (rows : List RelRow) (s e nf sk : Nat) (calls : List MutCall),
      (∀ row ∈ rows, (pyInt? row.gitlab_target_issue_iid).isSome = true
        ∧ (pyInt? row.gitlab_source_issue_iid).isSome = true) →
      (apply_relationships_go false st o r rows (s, e, nf, sk) calls).1.1
          + (apply_relationships_go false st o r rows (s, e, nf, sk) calls).1.2.1
          = s + e + rows.length
      ∧ (apply_relationships_go false st o r rows (s, e, nf, sk) calls).1.2.2
          = (nf, sk) := by
  intro rows
  induction rows with
  | nil => intro s e nf sk calls h; exact ⟨by simp [apply_relationships_go], rfl⟩
  | cons row rest ih =>
    intro s e nf sk calls h
    obtain ⟨tn, htn⟩ := Option.isSome_iff_exists.mp
      (h row (List.mem_cons_self row rest)).1
    obtain ⟨sn, hsn⟩ := Option.isSome_iff_exists.mp
      (h row (List.mem_cons_self row rest)).2
    have hrest := fun x hx => h x (List.mem_cons_of_mem row hx)
    simp only [apply_relationships_go, htn, hsn]
    rw [if_neg (show ¬(false = true) by decide)]
    set R := (if row.github_relationship_action = "Blocked by"
        ∨ row.github_relationship_action = "Blocking"
      then apply_issue_relationship st o r sn tn row.gitlab_relationship_type
      else add_comment_fallback o r sn tn row.gitlab_relationship_type)
      with hRdef
    by_cases hres : R.1 = true
    · rw [if_pos hres]
      refine ⟨?_, (ih (s + 1) e nf sk (calls ++ R.2) hrest).2⟩
      have h1 := (ih (s + 1) e nf sk (calls ++ R.2) hrest).1
      simp only [List.length_cons]
      omega
    · rw [if_neg hres]
      refine ⟨?_, (ih s (e + 1) nf sk (calls ++ R.2) hrest).2⟩
      have h1 := (ih s (e + 1) nf sk (calls ++ R.2) hrest).1
      simp only [List.length_cons]
      omega

/-- C6 counterexample: a malformed row (non-numeric target iid) is not
caught at its own record boundary: the batch-level handler returns zeroed
counts and the subsequent well-formed record is never processed, whereas
alone that record would be applied. -/
theorem claim_C6_counterexample :
    apply_relationships_from_map false demoTrackerPR "o" "r"
        [demoBadRow, demoPendingRow] = ((0, 0, 0, 0), []) ∧
      apply_relationships_from_map false demoTrackerPR "o" "r"
        [demoPendingRow] = ((1, 0, 0, 0),
          [MutCall.postComment "o" "r" 1
            (relationship_comment_body "relates_to" 2)]) := by
  exact ⟨rfl, rfl⟩

/-- C6 amended: a per-record remote failure is caught inside the record's
API helper and lands in the error count without stopping later records —
over well-formed rows every record reaches a terminal success/error
disposition (success + error = number of rows).  But a malformed row whose
iid does not parse raises past the record boundary: the function-level
handler returns zeroed counts and the remaining rows are abandoned.
Outcomes are recorded only in summary counts, never in ledger statuses. -/
theorem claim_C6 :
    (∀ (st : TrackerState) (o r : String) (rows : List RelRow),
        (∀ row ∈ rows, (pyInt? row.gitlab_target_issue_iid).isSome = true
          ∧ (pyInt? row.gitlab_source_issue_iid).isSome = true) →
        (apply_relationships_from_map false st o r rows).1.1
            + (apply_relationships_from_map false st o r rows).1.2.1
            = rows.length
        ∧ (apply_relationships_from_map false st o r rows).1.2.2 = (0, 0))
    ∧ (∀ (st : TrackerState) (o r : String) (row : RelRow)
        (rest : List RelRow), pyInt? row.gitlab_target_issue_iid = none →
        apply_relationships_from_map false st o r (row :: rest)
          = ((0, 0, 0, 0), [])) := by
  constructor
  · intro st o r rows h
    have := apply_go_live_totals st o r rows 0 0 0 0 [] h
    exact ⟨by simpa using this.1, this.2⟩
  · intro st o r row rest h
    simp [apply_relationships_from_map, apply_relationships_go, h]

/-- C6 witness: the totals statement evaluated on a single well-formed
row. -/
theorem claim_C6_witness :
    (apply_relationships_from_map false demoTrackerPR "o" "r"
        [demoPendingRow]).1.1
      + (apply_relationships_from_map false demoTrackerPR "o" "r"
        [demoPendingRow]).1.2.1 = 1
    ∧ (apply_relationships_from_map false demoTrackerPR "o" "r"
        [demoPendingRow]).1.2.2 = (0, 0) := by
  have h := claim_C6.1 demoTrackerPR "o" "r" [demoPendingRow]
    (by
      intro row hrow
      have : row = demoPendingRow := by simpa using hrow
      subst this
      exact ⟨by decide, by decide⟩)
  simpa using h

/-! ## C1: idempotence of the apply phase (corrected) -/

lemma ms_go_created (o r : String) :
    ∀ (rows : List MsRow) (nextNum : Int) (s e sk : Nat)
      (calls : List MutCall) (mmap : List (Int × Int)) (done : List MsRow),
      (∀ row ∈ rows, row.status = "created") →
      (∀ row ∈ rows, row.gitlab_id ≠ "" → row.github_number ≠ "" →
        (pyInt? row.gitlab_id).isSome = true
        ∧ (pyInt? row.github_number).isSome = true) →
      ∃ mmap', create_github_milestones_go o r rows nextNum (s, e, sk) calls
          mmap done =
        { success := s, errors := e, skipped := sk + rows.length
          calls := calls, milestone_map := mmap'
          rows := some (done ++ rows), retval := s } := by
  intro rows
  induction rows with
  | nil =>
    intro nextNum s e sk calls mmap done h1 h2
    exact ⟨mmap, by simp [create_github_milestones_go]⟩
  | cons row rest ih =>
    intro nextNum s e sk calls mmap done h1 h2
    have hst := h1 row (List.mem_cons_self row rest)
    have h1' := fun x hx => h1 x (List.mem_cons_of_mem row hx)
    have h2' := fun x hx => h2 x (List.mem_cons_of_mem row hx)
    by_cases hid : row.gitlab_id ≠ "" ∧ row.github_number ≠ ""
    · obtain ⟨g, hg⟩ := Option.isSome_iff_exists.mp
        (h2 row (List.mem_cons_self row rest) hid.1 hid.2).1
      obtain ⟨n, hn⟩ := Option.isSome_iff_exists.mp
        (h2 row (List.mem_cons_self row rest) hid.1 hid.2).2
      obtain ⟨m', hm'⟩ := ih nextNum s e (sk + 1) calls
        (updateAssoc g n mmap) (done ++ [row]) h1' h2'
      refine ⟨m', ?_⟩
      simp only [create_github_milestones_go, hst, if_pos rfl, if_pos hid,
        hg, hn, hm']
      have harith : sk + 1 + rest.length = sk + (row :: rest).length := by
        simp; omega
      rw [harith, List.append_assoc]
      simp
    · obtain ⟨m', hm'⟩ := ih nextNum s e (sk + 1) calls mmap
        (done ++ [row]) h1' h2'
      refine ⟨m', ?_⟩
      simp only [create_github_milestones_go, hst, if_pos rfl, if_neg hid,
        hm']
      have harith : sk + 1 + rest.length = sk + (row :: rest).length := by
        simp; omega
      rw [harith, List.append_assoc]
      simp

lemma apply_go_live_comment (st : TrackerState) (o r : String) :
    ∀ (rows : List RelRow) (s e nf sk : Nat) (calls : List MutCall),
      (∀ row ∈ rows, row.github_relationship_action = "Comment"
        ∧ (pyInt? row.gitlab_target_issue_iid).isSome = true
        ∧ (pyInt? row.gitlab_source_issue_iid).isSome = true) →
      (apply_relationships_go false st o r rows (s, e, nf, sk) calls).1
          = (s + rows.length, e, nf, sk)
      ∧ (apply_relationships_go false st o r rows (s, e, nf, sk) calls).2.length
          = calls.length + rows.length := by
  intro rows
  induction rows with
  | nil =>
    intro s e nf sk calls h
    exact ⟨by simp [apply_relationships_go], by simp [apply_relationships_go]⟩
  | cons row rest ih =>
    intro s e nf sk calls h
    have hrow := h row (List.mem_cons_self row rest)
    obtain ⟨tn, htn⟩ := Option.isSome_iff_exists.mp hrow.2.1
    obtain ⟨sn, hsn⟩ := Option.isSome_iff_exists.mp hrow.2.2
    have hrest := fun x hx => h x (List.mem_cons_of_mem row hx)
    have hnotdep : ¬ (row.github_relationship_action = "Blocked by"
        ∨ row.github_relationship_action = "Blocking") := by
      rw [hrow.1]; decide
    simp only [apply_relationships_go, htn, hsn]
    rw [if_neg (show ¬(false = true) by decide), if_neg hnotdep,
      if_pos (show (add_comment_fallback o r sn tn
        row.gitlab_relationship_type).1 = true from rfl)]
    have := ih (s + 1) e nf sk
      (calls ++ (add_comment_fallback o r sn tn
        row.gitlab_relationship_type).2) hrest
    constructor
    · rw [this.1]
      have harith : s + 1 + rest.length = s + (row :: rest).length := by
        simp only [List.length_cons]; omega
      rw [harith]
    · rw [this.2]
      simp only [add_comment_fallback, List.length_append, List.length_cons,
        List.length_nil]
      omega

/-- C1 counterexample: a relationships ledger whose single row is already
in the terminal `applied` state still triggers one mutating call (and a
would-apply count) on a live re-run, so re-applying an already-applied
ledger is not a no-op. -/
theorem claim_C1_counterexample :
    demoAppliedRow.status = "applied" ∧
      apply_relationships_from_map false demoTrackerPR "o" "r"
        [demoAppliedRow] = ((1, 0, 0, 0),
          [MutCall.postComment "o" "r" 1
            (relationship_comment_body "relates_to" 2)]) := by
  exact ⟨rfl, rfl⟩

/-- C1 amended: idempotence holds for the milestones apply operation —
over a ledger whose rows are all `created`, `create_github_milestones`
performs zero mutating calls, reports (0 created, 0 failed, N skipped) and
rewrites the ledger unchanged, so a re-run reports identical counts.  The
relationships apply operation ignores the `status` column entirely and
re-applies every row: a live run over N parseable comment-action rows
performs N mutating calls and counts N successes whatever the statuses
say. -/
theorem claim_C1 :
    (∀ (o r : String) (nextNum : Int) (rows : List MsRow),
        (∀ row ∈ rows, row.status = "created") →
        (∀ row ∈ rows, row.gitlab_id ≠ "" → row.github_number ≠ "" →
          (pyInt? row.gitlab_id).isSome = true
          ∧ (pyInt? row.github_number).isSome = true) →
        (create_github_milestones o r nextNum rows).calls = []
        ∧ (create_github_milestones o r nextNum rows).success = 0
        ∧ (create_github_milestones o r nextNum rows).errors = 0
        ∧ (create_github_milestones o r nextNum rows).skipped = rows.length
        ∧ (create_github_milestones o r nextNum rows).rows = some rows)
    ∧ (∀ (st : TrackerState) (o r : String) (rows : List RelRow),
        (∀ row ∈ rows, row.github_relationship_action = "Comment"
          ∧ (pyInt? row.gitlab_target_issue_iid).isSome = true
          ∧ (pyInt? row.gitlab_source_issue_iid).isSome = true) →
        (apply_relationships_from_map false st o r rows).1
            = (rows.length, 0, 0, 0)
        ∧ (apply_relationships_from_map false st o r rows).2.length
            = rows.length) := by
  constructor
  · intro o r nextNum rows h1 h2
    obtain ⟨m', hm'⟩ := ms_go_created o r rows nextNum 0 0 0 [] [] [] h1 h2
    rw [create_github_milestones, hm']
    exact ⟨rfl, rfl, rfl, by simp, by simp⟩
  · intro st o r rows h
    have := apply_go_live_comment st o r rows 0 0 0 0 [] h
    exact ⟨by simpa using this.1, by simpa using this.2⟩

/-- C1 witness: the amended statement evaluated on a fully-created
milestones ledger and a fully-applied relationships ledger. -/
theorem claim_C1_witness :
    (create_github_milestones "o" "r" 5 [demoMsCreatedRow]).calls = []
    ∧ (create_github_milestones "o" "r" 5 [demoMsCreatedRow]).skipped = 1
    ∧ (apply_relationships_from_map false demoTrackerPR "o" "r"
        [demoAppliedRow]).2.length = 1 := by
  have hms := claim_C1.1 "o" "r" 5 [demoMsCreatedRow]
    (by
      intro row hrow
      have : row = demoMsCreatedRow := by simpa using hrow
      subst this; rfl)
    (by
      intro row hrow hn1 hn2
      have : row = demoMsCreatedRow := by simpa using hrow
      subst this; exact ⟨by decide, by decide⟩)
  have hre := claim_C1.2 demoTrackerPR "o" "r" [demoAppliedRow]
    (by
      intro row hrow
      have : row = demoAppliedRow := by simpa using hrow
      subst this; exact ⟨rfl, by decide, by decide⟩)
  exact ⟨hms.1, by simpa using hms.2.2.2.1, by simpa using hre.2⟩

/-! ## C2: marker-based skip (corrected) -/

lemma apply_go_comments_indep (issues : List GhIssue)
    (cA cB : List (Int × GhComment)) (o r : String) :
    ∀ (rows : List RelRow) (acc : Counts) (calls : List MutCall),
      apply_relationships_go false ⟨issues, cA⟩ o r rows acc calls =
        apply_relationships_go false ⟨issues, cB⟩ o r rows acc calls := by
  intro rows
  induction rows with
  | nil => intro acc calls; rfl
  | cons row rest ih =>
    intro acc calls
    obtain ⟨s, e, nf, sk⟩ := acc
    cases htn : pyInt? row.gitlab_target_issue_iid with
    | none => simp [apply_relationships_go, htn]
    | some tn =>
      cases hsn : pyInt? row.gitlab_source_issue_iid with
      | none => simp [apply_relationships_go, htn, hsn]
      | some sn =>
        have hair : apply_issue_relationship ⟨issues, cA⟩ o r sn tn
            row.gitlab_relationship_type =
          apply_issue_relationship ⟨issues, cB⟩ o r sn tn
            row.gitlab_relationship_type := rfl
        simp [apply_relationships_go, htn, hsn, hair, ih]

/-- C2 counterexample: the target issue of `demoPendingRow` already carries
the comment (with the machine-imported marker suffix) that a previous apply
run posted, yet a second live run posts the very same comment again and
counts the record as applied — it is not marked skipped and the comment is
reposted. -/
theorem claim_C2_counterexample :
    demoTrackerMarker.comments =
        [(1, ⟨500, relationship_comment_body "relates_to" 2⟩)] ∧
      containsSeq migrationMarker.data
        (relationship_comment_body "relates_to" 2).data = true ∧
      apply_relationships_from_map false demoTrackerMarker "o" "r"
        [demoPendingRow] = ((1, 0, 0, 0),
          [MutCall.postComment "o" "r" 1
            (relationship_comment_body "relates_to" 2)]) := by
  exact ⟨rfl, by decide, rfl⟩

/-- C2 amended: the relationship applier performs no marker check at all —
its live run is independent of the target issues' existing comments, and
the comment fallback posts unconditionally — so a record whose marker
comment already exists is re-posted and counted as applied, never
`skipped`.  Only the comment-nesting applier skips already-processed
records, and it does so when the reply's GitHub body already starts with a
quote, with no mutating call (the imported-comment footer is used there to
match comments, not to skip records). -/
theorem claim_C2 :
    (∀ (issues : List GhIssue) (cA cB : List (Int × GhComment))
        (o r : String) (rows : List RelRow),
        apply_relationships_from_map false ⟨issues, cA⟩ o r rows =
          apply_relationships_from_map false ⟨issues, cB⟩ o r rows)
    ∧ (∀ (d : Bool) (o r : String) (rc pc : GhComment),
        pyStartsWith (pyLStrip rc.body) ">" = true →
        process_reply d o r (some rc) (some pc) =
          (ReplyOutcome.alreadyQuoted, [])) := by
  constructor
  · intro issues cA cB o r rows
    exact apply_go_comments_indep issues cA cB o r rows (0, 0, 0, 0) []
  · intro d o r rc pc h
    simp [process_reply, h]

/-- C2 witness: the amended statement evaluated on the marker-bearing
tracker state and on an already-quoted reply. -/
theorem claim_C2_witness :
    apply_relationships_from_map false
        ⟨demoTrackerMarker.issues, demoTrackerMarker.comments⟩ "o" "r"
        [demoPendingRow] =
      apply_relationships_from_map false
        ⟨demoTrackerMarker.issues, []⟩ "o" "r" [demoPendingRow]
    ∧ process_reply false "o" "r" (some ⟨9, "> quoted"⟩) (some ⟨8, "p"⟩) =
        (ReplyOutcome.alreadyQuoted, []) := by
  exact ⟨claim_C2.1 demoTrackerMarker.issues demoTrackerMarker.comments []
    "o" "r" [demoPendingRow],
    claim_C2.2 false "o" "r" ⟨9, "> quoted"⟩ ⟨8, "p"⟩ (by decide)⟩

/-! ## C10: cross-project rows are collapsed at apply time (confirmed) -/

lemma air_calls_repo (st : TrackerState) (o r : String) (sn tn : Int)
    (ty : String) :
    ∀ c ∈ (apply_issue_relationship st o r sn tn ty).2,
      mutCallRepo c = (o, r) := by
  intro c h
  unfold apply_issue_relationship at h
  dsimp only at h
  repeat' (first | split at h | dsimp only at h)
  all_goals simp_all [mutCallRepo]

lemma acf_calls_repo (o r : String) (sn tn : Int) (ty : String) :
    ∀ c ∈ (add_comment_fallback o r sn tn ty).2, mutCallRepo c = (o, r) := by
  intro c h
  simp [add_comment_fallback] at h
  subst h
  rfl

lemma apply_go_calls_repo (st : TrackerState) (o r : String) :
    ∀ (rows : List RelRow) (acc : Counts) (calls : List MutCall),
      (∀ c ∈ calls, mutCallRepo c = (o, r)) →
      ∀ c ∈ (apply_relationships_go false st o r rows acc calls).2,
        mutCallRepo c = (o, r) := by
  intro rows
  induction rows with
  | nil => intro acc calls h; exact h
  | cons row rest ih =>
    intro acc calls h
    obtain ⟨s, e, nf, sk⟩ := acc
    cases htn : pyInt? row.gitlab_target_issue_iid with
    | none => simpa [apply_relationships_go, htn] using h
    | some tn =>
      cases hsn : pyInt? row.gitlab_source_issue_iid with
      | none => simpa [apply_relationships_go, htn, hsn] using h
      | some sn =>
        simp only [apply_relationships_go, htn, hsn]
        rw [if_neg (show ¬(false = true) by decide)]
        set R := (if row.github_relationship_action = "Blocked by"
            ∨ row.github_relationship_action = "Blocking"
          then apply_issue_relationship st o r sn tn
            row.gitlab_relationship_type
          else add_comment_fallback o r sn tn row.gitlab_relationship_type)
          with hRdef
        have hcalls : ∀ c ∈ calls ++ R.2, mutCallRepo c = (o, r) := by
          intro c hc
          rcases List.mem_append.mp hc with hc1 | hc2
          · exact h c hc1
          · rw [hRdef] at hc2
            by_cases hdep : row.github_relationship_action = "Blocked by"
                ∨ row.github_relationship_action = "Blocking"
            · rw [if_pos hdep] at hc2
              exact air_calls_repo st o r sn tn _ c hc2
            · rw [if_neg hdep] at hc2
              exact acf_calls_repo o r sn tn _ c hc2
        by_cases hres : R.1 = true
        · rw [if_pos hres]
          exact ih (s + 1, e, nf, sk) (calls ++ R.2) hcalls
        · rw [if_neg hres]
          exact ih (s, e + 1, nf, sk) (calls ++ R.2) hcalls

/-- C10: the apply-relationships operation resolves every target in the
same GitHub repository as the source, using the GitLab target issue iid
directly as the GitHub issue number: the run is unchanged when a row's
cross-project `target_project_id` flag is erased, every mutating call is
addressed to the configured (owner, repo), and a single row's calls are
exactly those of the dependency call or comment fallback on the two parsed
iids. -/
theorem claim_C10 :
    (∀ (st : TrackerState) (o r : String) (row : RelRow),
        apply_relationships_from_map false st o r [row] =
          apply_relationships_from_map false st o r
            [{ row with target_project_id := "" }])
    ∧ (∀ (st : TrackerState) (o r : String) (rows : List RelRow),
        ∀ c ∈ (apply_relationships_from_map false st o r rows).2,
          mutCallRepo c = (o, r))
    ∧ (∀ (st : TrackerState) (o r : String) (row : RelRow) (sn tn : Int),
        pyInt? row.gitlab_source_issue_iid = some sn →
        pyInt? row.gitlab_target_issue_iid = some tn →
        (apply_relationships_from_map false st o r [row]).2 =
          (if row.github_relationship_action = "Blocked by"
              ∨ row.github_relationship_action = "Blocking"
            then apply_issue_relationship st o r sn tn
              row.gitlab_relationship_type
            else add_comment_fallback o r sn tn
              row.gitlab_relationship_type).2) := by
  refine ⟨?_, ?_, ?_⟩
  · intro st o r row
    cases row
    rfl
  · intro st o r rows
    exact apply_go_calls_repo st o r rows (0, 0, 0, 0) [] (by intro c hc; simp at hc)
  · intro st o r row sn tn hsn htn
    simp only [apply_relationships_from_map, apply_relationships_go, hsn, htn]
    rw [if_neg (show ¬(false = true) by decide)]
    set R := (if row.github_relationship_action = "Blocked by"
        ∨ row.github_relationship_action = "Blocking"
      then apply_issue_relationship st o r sn tn row.gitlab_relationship_type
      else add_comment_fallback o r sn tn row.gitlab_relationship_type)
      with hRdef
    by_cases hres : R.1 = true
    · rw [if_pos hres]
      simp [apply_relationships_go]
    · rw [if_neg hres]
      simp [apply_relationships_go]

/-- C10 witness: the cross-project-flagged row behaves exactly as its
same-project version, and its single mutating call is the comment fallback
on the parsed iids. -/
theorem claim_C10_witness :
    apply_relationships_from_map false demoTrackerPR "o" "r" [demoCrossRow] =
      apply_relationships_from_map false demoTrackerPR "o" "r"
        [{ demoCrossRow with target_project_id := "" }]
    ∧ (apply_relationships_from_map false demoTrackerPR "o" "r"
        [demoCrossRow]).2 =
      (add_comment_fallback "o" "r" 1 2 "relates_to").2 := by
  constructor
  · exact claim_C10.1 demoTrackerPR "o" "r" demoCrossRow
  · have h := claim_C10.2.2 demoTrackerPR "o" "r" demoCrossRow 1 2
      (by decide) (by decide)
    rw [h]
    rfl

/-! ## C3: layered matching order (corrected) -/

/-- C3 counterexample: the comment-mapper issue matcher, asked to match
"Fix login bug" against targets offering first a case-insensitive
candidate and then an exact-title candidate, returns the case-insensitive
one — the exact-title target (number 2) is not preferred. -/
theorem claim_C3_counterexample :
    issue_title_match "Fix login bug" demoTargets = some 1 ∧
      demoTargets.find? (fun t => t.2 = "Fix login bug") =
        some (2, "Fix login bug") := by
  exact ⟨by decide, by decide⟩

/-- C3 amended: the milestones matcher is layered — whenever some target
has exactly the source title, the result is an exact-title target (the
case-insensitive pass is only a fallback) — and both matchers are
deterministic functions of their inputs; but the comment-mapper issue
matcher applies a single case-insensitive, whitespace-stripped comparison
(first match wins), so it does not prefer an exact-title target over an
earlier case-insensitive candidate. -/
theorem claim_C3 :
    (∀ (title : String) (targets : List (Int × String)) (t : Int × String),
        t ∈ targets → t.2 = title →
        ∃ u, u ∈ targets ∧ u.2 = title
          ∧ milestone_title_match title targets = some u.1)
    ∧ (∀ (title : String) (targets : List (Int × String)) (t : Int × String),
        t ∈ targets → pyStrip (pyLower title) = pyStrip (pyLower t.2) →
        ∃ u, u ∈ targets ∧ pyStrip (pyLower title) = pyStrip (pyLower u.2)
          ∧ issue_title_match title targets = some u.1) := by
  constructor
  · intro title targets t ht hexact
    have hsome : (targets.find? (fun x => x.2 = title)).isSome := by
      apply List.find?_isSome.mpr
      exact ⟨t, ht, by simp [hexact]⟩
    obtain ⟨u, hu⟩ := Option.isSome_iff_exists.mp hsome
    refine ⟨u, List.mem_of_find?_eq_some hu, ?_, ?_⟩
    · have := List.find?_some hu
      simpa using this
    · simp [milestone_title_match, hu]
  · intro title targets t ht hci
    have hsome : (targets.find?
        (fun g => pyStrip (pyLower title) = pyStrip (pyLower g.2))).isSome := by
      apply List.find?_isSome.mpr
      exact ⟨t, ht, by simp [hci]⟩
    obtain ⟨u, hu⟩ := Option.isSome_iff_exists.mp hsome
    refine ⟨u, List.mem_of_find?_eq_some hu, ?_, ?_⟩
    · have := List.find?_some hu
      simpa using this
    · simp [issue_title_match, hu]

/-- C3 witness: the amended statement evaluated on the demo target lists. -/
theorem claim_C3_witness :
    (∃ u, u ∈ demoTargets ∧ u.2 = "Fix login bug"
      ∧ milestone_title_match "Fix login bug" demoTargets = some u.1)
    ∧ (∃ u, u ∈ demoTargets
      ∧ pyStrip (pyLower "Fix login bug") = pyStrip (pyLower u.2)
      ∧ issue_title_match "Fix login bug" demoTargets = some u.1) := by
  constructor
  · exact claim_C3.1 "Fix login bug" demoTargets (2, "Fix login bug")
      (by decide) (by decide)
  · exact claim_C3.2 "Fix login bug" demoTargets (1, "FIX LOGIN BUG")
      (by decide) (by decide)

/-! ## C4: deduplication (confirmed) -/

section AssocLemmas

variable {K V : Type} [DecidableEq K]

lemma lookupAssoc_eq_none (k : K) :
    ∀ m : List (K × V), lookupAssoc k m = none ↔ k ∉ m.map Prod.fst := by
  intro m
  induction m with
  | nil => simp [lookupAssoc]
  | cons p rest ih =>
    obtain ⟨k', v'⟩ := p
    by_cases h : k' = k
    · subst h
      simp [lookupAssoc]
    · simp [lookupAssoc, h, ih, Ne.symm h]

lemma lookupAssoc_updateAssoc_self (k : K) (v : V) :
    ∀ m : List (K × V), lookupAssoc k (updateAssoc k v m) = some v := by
  intro m
  induction m with
  | nil => simp [updateAssoc, lookupAssoc]
  | cons p rest ih =>
    obtain ⟨k', v'⟩ := p
    by_cases h : k' = k
    · simp [updateAssoc, lookupAssoc, h]
    · simp [updateAssoc, lookupAssoc, h, ih]

lemma lookupAssoc_updateAssoc_ne (k k' : K) (v : V) (hne : k' ≠ k) :
    ∀ m : List (K × V),
      lookupAssoc k' (updateAssoc k v m) = lookupAssoc k' m := by
  have hkk : ¬ k = k' := fun h => hne h.symm
  intro m
  induction m with
  | nil =>
    simp only [updateAssoc, lookupAssoc]
    rw [if_neg hkk]
  | cons p rest ih =>
    obtain ⟨k0, v0⟩ := p
    by_cases h : k0 = k
    · subst h
      simp only [updateAssoc, if_pos rfl, lookupAssoc]
      rw [if_neg hkk, if_neg hkk]
    · simp only [updateAssoc, if_neg h, lookupAssoc]
      by_cases h' : k0 = k'
      · rw [if_pos h', if_pos h']
      · rw [if_neg h', if_neg h', ih]

lemma keys_updateAssoc (k : K) (v : V) :
    ∀ m : List (K × V),
      (updateAssoc k v m).map Prod.fst =
        if k ∈ m.map Prod.fst then m.map Prod.fst
        else m.map Prod.fst ++ [k] := by
  intro m
  induction m with
  | nil => simp [updateAssoc]
  | cons p rest ih =>
    obtain ⟨k0, v0⟩ := p
    by_cases h : k0 = k
    · subst h
      simp [updateAssoc]
    · simp only [updateAssoc, if_neg h, List.map_cons, ih]
      by_cases hm : k ∈ rest.map Prod.fst
      · rw [if_pos hm, if_pos (by simp [hm])]
      · rw [if_neg hm,
          if_neg (by simp [hm]; exact fun hh => h hh.symm)]
        simp

lemma nodup_keys_updateAssoc (k : K) (v : V) (m : List (K × V))
    (h : (m.map Prod.fst).Nodup) :
    ((updateAssoc k v m).map Prod.fst).Nodup := by
  rw [keys_updateAssoc]
  by_cases hm : k ∈ m.map Prod.fst
  · rw [if_pos hm]
    exact h
  · rw [if_neg hm]
    simp [List.nodup_append, h, hm]

lemma entries_updateAssoc (P : K × V → Prop) (k : K) (v : V) :
    ∀ m : List (K × V), (∀ p ∈ m, P p) → P (k, v) →
      ∀ p ∈ updateAssoc k v m, P p := by
  intro m
  induction m with
  | nil =>
    intro h hkv p hp
    simp [updateAssoc] at hp
    subst hp
    exact hkv
  | cons q rest ih =>
    intro h hkv p hp
    obtain ⟨k', v'⟩ := q
    by_cases hk : k' = k
    · rw [updateAssoc, if_pos hk] at hp
      rcases List.mem_cons.mp hp with h1 | h2
      · subst h1; exact hkv
      · exact h p (List.mem_cons_of_mem _ h2)
    · rw [updateAssoc, if_neg hk] at hp
      rcases List.mem_cons.mp hp with h1 | h2
      · subst h1; exact h _ (List.mem_cons_self _ _)
      · exact ih (fun q hq => h q (List.mem_cons_of_mem _ hq)) hkv p h2

lemma lookupAssoc_of_mem_nodup (k : K) (v : V) :
    ∀ m : List (K × V), (m.map Prod.fst).Nodup → (k, v) ∈ m →
      lookupAssoc k m = some v := by
  intro m
  induction m with
  | nil => intro _ h; simp at h
  | cons p rest ih =>
    intro hnd hmem
    obtain ⟨k', v'⟩ := p
    rcases List.mem_cons.mp hmem with h1 | h2
    · rw [← h1]
      simp [lookupAssoc]
    · have hk : ¬ k' = k := by
        intro hkk
        subst hkk
        have hmemk : k' ∈ rest.map Prod.fst :=
          List.mem_map.mpr ⟨(k', v), h2, rfl⟩
        rw [List.map_cons, List.nodup_cons] at hnd
        exact hnd.1 hmemk
      simp only [lookupAssoc, if_neg hk]
      refine ih ?_ h2
      rw [List.map_cons, List.nodup_cons] at hnd
      exact hnd.2

end AssocLemmas

lemma foldl_dedupStep_keyed :
    ∀ (rels : List Rel) (m : List ((Int × Int × String) × Rel)),
      (∀ p ∈ m, relKey p.2 = p.1) →
      ∀ p ∈ rels.foldl dedupStep m, relKey p.2 = p.1 := by
  intro rels
  induction rels with
  | nil => intro m h; simpa using h
  | cons r rest ih =>
    intro m h
    rw [List.foldl_cons]
    apply ih
    intro p hp
    unfold dedupStep at hp
    by_cases hc : (lookupAssoc (relKey r) m).isNone = true
        ∨ r.relationship_source = "api_link"
    · rw [if_pos hc] at hp
      exact entries_updateAssoc (fun p => relKey p.2 = p.1) _ _ m h rfl p hp
    · rw [if_neg hc] at hp
      exact h p hp

lemma foldl_dedupStep_nodup :
    ∀ (rels : List Rel) (m : List ((Int × Int × String) × Rel)),
      (m.map Prod.fst).Nodup →
      ((rels.foldl dedupStep m).map Prod.fst).Nodup := by
  intro rels
  induction rels with
  | nil => intro m h; simpa using h
  | cons r rest ih =>
    intro m h
    rw [List.foldl_cons]
    apply ih
    unfold dedupStep
    by_cases hc : (lookupAssoc (relKey r) m).isNone = true
        ∨ r.relationship_source = "api_link"
    · rw [if_pos hc]
      exact nodup_keys_updateAssoc _ _ m h
    · rw [if_neg hc]
      exact h

lemma foldl_dedupStep_subset :
    ∀ (rels : List Rel) (m : List ((Int × Int × String) × Rel)) (p),
      p ∈ rels.foldl dedupStep m → p ∈ m ∨ p.2 ∈ rels := by
  intro rels
  induction rels with
  | nil => intro m p h; exact Or.inl (by simpa using h)
  | cons r rest ih =>
    intro m p h
    rw [List.foldl_cons] at h
    rcases ih (dedupStep m r) p h with h1 | h2
    · unfold dedupStep at h1
      by_cases hc : (lookupAssoc (relKey r) m).isNone = true
          ∨ r.relationship_source = "api_link"
      · rw [if_pos hc] at h1
        -- membership in an update is either the new entry or an old one
        have : p = (relKey r, r) ∨ p ∈ m := by
          clear h hc ih
          induction m with
          | nil => simpa [updateAssoc] using h1
          | cons q rest' ih' =>
            obtain ⟨k0, v0⟩ := q
            by_cases hk : k0 = relKey r
            · rw [updateAssoc, if_pos hk] at h1
              rcases List.mem_cons.mp h1 with hh | hh
              · exact Or.inl hh
              · exact Or.inr (List.mem_cons_of_mem _ hh)
            · rw [updateAssoc, if_neg hk] at h1
              rcases List.mem_cons.mp h1 with hh | hh
              · exact Or.inr (hh ▸ List.mem_cons_self _ _)
              · rcases ih' hh with hh' | hh'
                · exact Or.inl hh'
                · exact Or.inr (List.mem_cons_of_mem _ hh')
        rcases this with he | hm
        · exact Or.inr (by rw [he]; exact List.mem_cons_self r rest)
        · exact Or.inl hm
      · rw [if_neg hc] at h1
        exact Or.inl h1
    · exact Or.inr (List.mem_cons_of_mem r h2)

lemma foldl_dedupStep_api :
    ∀ (rels : List Rel) (m : List ((Int × Int × String) × Rel))
      (k : Int × Int × String),
      ((∃ v, lookupAssoc k m = some v ∧ v.relationship_source = "api_link")
        ∨ (∃ x ∈ rels, relKey x = k ∧ x.relationship_source = "api_link")) →
      ∃ v, lookupAssoc k (rels.foldl dedupStep m) = some v
        ∧ v.relationship_source = "api_link" := by
  intro rels
  induction rels with
  | nil =>
    intro m k h
    rcases h with h | h
    · simpa using h
    · simp at h
  | cons r rest ih =>
    intro m k h
    rw [List.foldl_cons]
    apply ih
    by_cases hkey : relKey r = k
    · by_cases hapi : r.relationship_source = "api_link"
      · left
        refine ⟨r, ?_, hapi⟩
        unfold dedupStep
        rw [if_pos (Or.inr hapi), hkey,
          lookupAssoc_updateAssoc_self k r m]
      · -- the head is not api-link at this key: keep what the hypothesis
        -- provides
        rcases h with hL | hR
        · left
          obtain ⟨v, hv, hvapi⟩ := hL
          refine ⟨v, ?_, hvapi⟩
          unfold dedupStep
          by_cases hc : (lookupAssoc (relKey r) m).isNone = true
              ∨ r.relationship_source = "api_link"
          · rcases hc with hc | hc
            · rw [hkey] at hc
              rw [hv] at hc
              simp at hc
            · exact absurd hc hapi
          · rw [if_neg hc]
            exact hv
        · obtain ⟨x, hx, hxk, hxapi⟩ := hR
          rcases List.mem_cons.mp hx with h1 | h2
          · subst h1; exact absurd hxapi hapi
          · right
            exact ⟨x, h2, hxk, hxapi⟩
    · rcases h with hL | hR
      · left
        obtain ⟨v, hv, hvapi⟩ := hL
        refine ⟨v, ?_, hvapi⟩
        unfold dedupStep
        by_cases hc : (lookupAssoc (relKey r) m).isNone = true
            ∨ r.relationship_source = "api_link"
        · rw [if_pos hc, lookupAssoc_updateAssoc_ne (relKey r) k r
            (fun hkk => hkey hkk.symm) m]
          exact hv
        · rw [if_neg hc]
          exact hv
      · obtain ⟨x, hx, hxk, hxapi⟩ := hR
        rcases List.mem_cons.mp hx with h1 | h2
        · subst h1; exact absurd hxk hkey
        · right
          exact ⟨x, h2, hxk, hxapi⟩

lemma foldl_dedupStep_first :
    ∀ (rels : List Rel) (m : List ((Int × Int × String) × Rel))
      (k : Int × Int × String),
      (∀ x ∈ rels, relKey x = k → x.relationship_source ≠ "api_link") →
      lookupAssoc k (rels.foldl dedupStep m) =
        match lookupAssoc k m with
        | some v => some v
        | none => rels.find? (fun x => decide (relKey x = k)) := by
  intro rels
  induction rels with
  | nil =>
    intro m k h
    simp only [List.foldl_nil, List.find?_nil]
    cases lookupAssoc k m <;> rfl
  | cons r rest ih =>
    intro m k h
    have hrest := fun x hx => h x (List.mem_cons_of_mem r hx)
    rw [List.foldl_cons, ih (dedupStep m r) k hrest]
    by_cases hkey : relKey r = k
    · have hnapi : r.relationship_source ≠ "api_link" :=
        h r (List.mem_cons_self r rest) hkey
      cases hm : lookupAssoc k m with
      | some v =>
        have : dedupStep m r = m := by
          unfold dedupStep
          rw [if_neg]
          intro hc
          rcases hc with hc | hc
          · rw [hkey, hm] at hc; simp at hc
          · exact hnapi hc
        rw [this, hm]
      | none =>
        have hstep : dedupStep m r = updateAssoc (relKey r) r m := by
          unfold dedupStep
          rw [if_pos (Or.inl (by rw [hkey, hm]; rfl))]
        rw [hstep, hkey, lookupAssoc_updateAssoc_self k r m]
        rw [List.find?_cons_of_pos _ (by simp [hkey])]
    · have hlook : lookupAssoc k (dedupStep m r) = lookupAssoc k m := by
        unfold dedupStep
        by_cases hc : (lookupAssoc (relKey r) m).isNone = true
            ∨ r.relationship_source = "api_link"
        · rw [if_pos hc]
          exact lookupAssoc_updateAssoc_ne (relKey r) k r
            (fun hkk => hkey hkk.symm) m
        · rw [if_neg hc]
      rw [hlook, List.find?_cons_of_neg _ (by simp [hkey])]

/-- C4: deduplication keyed on (source iid, target iid, kind) leaves at
most one relationship per key; whenever any duplicate with `api_link`
provenance exists, the survivor for that key has `api_link` provenance; and
when every item of a key is text-derived, the survivor is the first-seen
item with that key. -/
theorem claim_C4 (rels : List Rel) :
    List.Pairwise (fun a b => relKey a ≠ relKey b) (dedupRelationships rels)
    ∧ (∀ k, (∃ x ∈ rels, relKey x = k ∧ x.relationship_source = "api_link") →
        ∀ x ∈ dedupRelationships rels, relKey x = k →
          x.relationship_source = "api_link")
    ∧ (∀ k, (∀ x ∈ rels, relKey x = k → x.relationship_source ≠ "api_link") →
        ∀ x ∈ dedupRelationships rels, relKey x = k →
          rels.find? (fun y => decide (relKey y = k)) = some x) := by
  have hkeyed := foldl_dedupStep_keyed rels [] (by simp)
  have hnodup := foldl_dedupStep_nodup rels [] (by simp)
  have hmemlookup : ∀ x ∈ dedupRelationships rels,
      lookupAssoc (relKey x) (rels.foldl dedupStep []) = some x := by
    intro x hx
    simp only [dedupRelationships] at hx
    obtain ⟨p, hp, hpx⟩ := List.mem_map.mp hx
    have hkey := hkeyed p hp
    have : p = (relKey x, x) := by
      obtain ⟨pk, pv⟩ := p
      simp only at hpx
      subst hpx
      simp only at hkey
      rw [hkey]
    rw [this] at hp
    exact lookupAssoc_of_mem_nodup _ _ _ hnodup hp
  refine ⟨?_, ?_, ?_⟩
  · have hnodup' : List.Pairwise (fun a b => a ≠ b)
        ((rels.foldl dedupStep []).map Prod.fst) := hnodup
    have hpairkeys : List.Pairwise
        (fun p q : (Int × Int × String) × Rel => p.1 ≠ q.1)
        (rels.foldl dedupStep []) := List.pairwise_map.mp hnodup'
    have hpairvals : List.Pairwise
        (fun p q : (Int × Int × String) × Rel => relKey p.2 ≠ relKey q.2)
        (rels.foldl dedupStep []) := by
      refine List.Pairwise.imp_of_mem ?_ hpairkeys
      intro a b ha hb hab
      rw [hkeyed a ha, hkeyed b hb]
      exact hab
    exact List.pairwise_map.mpr hpairvals
  · intro k hex x hx hxk
    obtain ⟨v, hv, hvapi⟩ := foldl_dedupStep_api rels [] k
      (Or.inr hex)
    have := hmemlookup x hx
    rw [hxk] at this
    rw [this] at hv
    injection hv with hv
    rw [hv.symm] at hvapi
    exact hvapi
  · intro k hall x hx hxk
    have hfind := foldl_dedupStep_first rels [] k hall
    have := hmemlookup x hx
    rw [hxk] at this
    rw [hfind] at this
    simpa [lookupAssoc] using this

/-- C4 witness: the two (7, 12, blocks) evidence items collapse to one
relationship retaining api-link provenance. -/
theorem claim_C4_witness :
    dedupRelationships demoEvidence = [demoApiSurvivor]
    ∧ demoApiSurvivor.relationship_source = "api_link" := by
  constructor
  · rfl
  · exact (claim_C4 demoEvidence).2.1 (7, 12, "blocks")
      ⟨demoApiSurvivor, by decide, rfl, rfl⟩ demoApiSurvivor
      (by
        rw [show dedupRelationships demoEvidence = [demoApiSurvivor] from rfl]
        exact List.mem_singleton.mpr rfl)
      rfl

/-! ## C7: self-reference exclusion (confirmed) -/

lemma relsFromMatches_spec (issues : List GlIssueData) (iid : Int)
    (title : String) (tag : String) :
    ∀ (ms : List (String × Int)) (x : Rel),
      x ∈ relsFromMatches issues iid title tag ms →
      x.source_issue_iid = iid ∧ x.target_issue_iid ≠ iid
        ∧ x.relationship_source = tag := by
  intro ms
  induction ms with
  | nil => intro x hx; simp [relsFromMatches] at hx
  | cons m rest ih =>
    intro x hx
    by_cases hm : m.2 = iid
    · rw [relsFromMatches, if_pos hm] at hx
      exact ih x hx
    · rw [relsFromMatches, if_neg hm] at hx
      rcases List.mem_cons.mp hx with h1 | h2
      · subst h1
        exact ⟨rfl, hm, rfl⟩
      · exact ih x h2

lemma dedupRelationships_subset (rels : List Rel) (x : Rel)
    (hx : x ∈ dedupRelationships rels) : x ∈ rels := by
  simp only [dedupRelationships] at hx
  obtain ⟨p, hp, hpx⟩ := List.mem_map.mp hx
  rcases foldl_dedupStep_subset rels [] p hp with h | h
  · simp at h
  · rw [← hpx]
    exact h

/-- C7: no relationship whose source issue id equals its target issue id is
ever produced from text-derived evidence — a text pattern match naming the
issue's own number (in the description or any comment) is discarded. -/
theorem claim_C7 (projTail : String) (issues : List GlIssueData) (x : Rel)
    (hx : x ∈ get_issue_relationships projTail issues)
    (htext : x.relationship_source = "description_text"
      ∨ x.relationship_source = "comment_text") :
    x.source_issue_iid ≠ x.target_issue_iid := by
  have hx' := dedupRelationships_subset _ x hx
  obtain ⟨l, hl, hxl⟩ := List.mem_flatten.mp hx'
  obtain ⟨i, hi, hil⟩ := List.mem_map.mp hl
  rw [← hil] at hxl
  unfold issueEvidence at hxl
  rcases List.mem_append.mp hxl with h1 | h2
  · rcases List.mem_append.mp h1 with h3 | h4
    · obtain ⟨lk, hlk, hlkx⟩ := List.mem_map.mp h3
      have : x.relationship_source = "api_link" := by
        rw [← hlkx]
        rfl
      rcases htext with ht | ht
      · rw [this] at ht; exact absurd ht (by decide)
      · rw [this] at ht; exact absurd ht (by decide)
    · have h := relsFromMatches_spec issues i.iid i.title
        "description_text" i.descMatches x h4
      rw [h.1]
      exact fun hc => h.2.1 hc.symm
  · obtain ⟨cm, hcm, hxc⟩ := List.mem_flatten.mp h2
    obtain ⟨c, hc, hcl⟩ := List.mem_map.mp hcm
    rw [← hcl] at hxc
    have h := relsFromMatches_spec issues i.iid i.title "comment_text" c x hxc
    rw [h.1]
    exact fun hcq => h.2.1 hcq.symm

/-- C7 witness: issue #42's self-mentions are dropped and the surviving
relationship does not relate #42 to itself. -/
theorem claim_C7_witness :
    get_issue_relationships "p" [demoIssue42] = [demoBlocksRel]
    ∧ demoBlocksRel.source_issue_iid ≠ demoBlocksRel.target_issue_iid := by
  constructor
  · rfl
  · exact claim_C7 "p" [demoIssue42] demoBlocksRel
      (by
        rw [show get_issue_relationships "p" [demoIssue42] = [demoBlocksRel]
          from rfl]
        exact List.mem_singleton.mpr rfl)
      (Or.inl rfl)

/-! ## C9: ledger round-trip (confirmed) -/
lemma csv_step_true_quote (f : List Char) (r : List (List Char))
    (acc : List (List (List Char))) (rest : List Char) :
    csvParseAux true f r acc ('"' :: rest) =
      if rest.head? = some '"'
      then csvParseAux true (f ++ ['"']) r acc rest.tail
      else csvParseAux false f r acc rest := by
  cases rest with
  | nil => simp [csvParseAux]
  | cons c2 rest2 =>
    by_cases hc : c2 = '"'
    · subst hc; simp [csvParseAux]
    · simp [csvParseAux, hc]

lemma csv_step_true_char (c : Char) (hc : ¬ c = '"') (f : List Char)
    (r : List (List Char)) (acc : List (List (List Char)))
    (rest : List Char) :
    csvParseAux true f r acc (c :: rest) =
      csvParseAux true (f ++ [c]) r acc rest := by
  cases rest with
  | nil => simp [csvParseAux, hc]
  | cons c2 rest2 => simp [csvParseAux, hc]

lemma csv_step_false_comma (f : List Char) (r : List (List Char))
    (acc : List (List (List Char))) (rest : List Char) :
    csvParseAux false f r acc (',' :: rest) =
      csvParseAux false [] (r ++ [f]) acc rest := rfl

lemma csv_step_false_quote (f : List Char) (r : List (List Char))
    (acc : List (List (List Char))) (rest : List Char) :
    csvParseAux false f r acc ('"' :: rest) =
      csvParseAux true f r acc rest := by
  cases rest with
  | nil => rfl
  | cons c2 rest2 => simp [csvParseAux]

lemma csv_step_false_crlf (f : List Char) (r : List (List Char))
    (acc : List (List (List Char))) (rest : List Char) :
    csvParseAux false f r acc ('\r' :: '\n' :: rest) =
      csvParseAux false [] [] (acc ++ [r ++ [f]]) rest := rfl

lemma csv_step_false_char (c : Char) (hc : csvNeedsQuote c = false)
    (f : List Char) (r : List (List Char)) (acc : List (List (List Char)))
    (rest : List Char) :
    csvParseAux false f r acc (c :: rest) =
      csvParseAux false (f ++ [c]) r acc rest := by
  simp only [csvNeedsQuote, Bool.or_eq_false_iff,
    decide_eq_false_iff_not] at hc
  obtain ⟨⟨⟨h1, h2⟩, h3⟩, h4⟩ := hc
  cases rest with
  | nil => simp [csvParseAux, h1, h2, h3, h4]
  | cons c2 rest2 => simp [csvParseAux, h1, h2, h3, h4]

lemma csvParseAux_unquoted :
    ∀ (cs : List Char), (∀ c ∈ cs, csvNeedsQuote c = false) →
    ∀ (f : List Char) (r : List (List Char)) (acc : List (List (List Char)))
      (rest : List Char),
      csvParseAux false f r acc (cs ++ rest) =
        csvParseAux false (f ++ cs) r acc rest := by
  intro cs
  induction cs with
  | nil => intro h f r acc rest; simp
  | cons c cs' ih =>
    intro h f r acc rest
    rw [List.cons_append,
      csv_step_false_char c (h c (List.mem_cons_self c cs')),
      ih (fun x hx => h x (List.mem_cons_of_mem c hx)) (f ++ [c]) r acc rest]
    simp

lemma csvParseAux_escaped :
    ∀ (cs : List Char) (f : List Char) (r : List (List Char))
      (acc : List (List (List Char))) (rest : List Char),
      rest.head? ≠ some '"' →
      csvParseAux true f r acc (csvEscape cs ++ ('"' :: rest)) =
        csvParseAux false (f ++ cs) r acc rest := by
  intro cs
  induction cs with
  | nil =>
    intro f r acc rest hrest
    simp only [csvEscape, List.nil_append]
    rw [csv_step_true_quote, if_neg hrest]
    simp
  | cons c cs' ih =>
    intro f r acc rest hrest
    by_cases hq : c = '"'
    · subst hq
      have hesc : csvEscape ('"' :: cs') = '"' :: '"' :: csvEscape cs' := by
        simp [csvEscape]
      rw [hesc, List.cons_append, List.cons_append, csv_step_true_quote,
        if_pos (show (('"' :: (csvEscape cs' ++ ('"' :: rest))).head?
          = some '"') from rfl)]
      simp only [List.tail_cons]
      rw [ih (f ++ ['"']) r acc rest hrest]
      simp
    · simp only [csvEscape, if_neg hq, List.cons_append]
      rw [csv_step_true_char c hq, ih (f ++ [c]) r acc rest hrest]
      simp

lemma csvParseAux_field :
    ∀ (fld : List Char) (r : List (List Char))
      (acc : List (List (List Char))) (rest : List Char),
      rest.head? ≠ some '"' →
      csvParseAux false [] r acc (csvEncodeField fld ++ rest) =
        csvParseAux false fld r acc rest := by
  intro fld r acc rest hrest
  by_cases hq : fld.any csvNeedsQuote
  · rw [csvEncodeField, if_pos hq, List.cons_append, List.append_assoc,
      List.singleton_append, csv_step_false_quote]
    have := csvParseAux_escaped fld [] r acc rest hrest
    simpa using this
  · rw [csvEncodeField, if_neg hq]
    have hall : ∀ c ∈ fld, csvNeedsQuote c = false := by
      intro c hc
      cases hb : csvNeedsQuote c
      · rfl
      · exact absurd (List.any_eq_true.mpr ⟨c, hc, hb⟩) hq
    have := csvParseAux_unquoted fld hall [] r acc rest
    simpa using this

lemma csvParseAux_record :
    ∀ (flds : List (List Char)), flds ≠ [] →
    ∀ (r : List (List Char)) (acc : List (List (List Char)))
      (rest : List Char),
      csvParseAux false [] r acc
          (csvEncodeRow flds ++ ('\r' :: '\n' :: rest)) =
        csvParseAux false [] [] (acc ++ [r ++ flds]) rest := by
  intro flds
  induction flds with
  | nil => intro h; exact absurd rfl h
  | cons f fs ih =>
    intro _ r acc rest
    cases fs with
    | nil =>
      rw [show csvEncodeRow [f] = csvEncodeField f from rfl,
        csvParseAux_field f r acc ('\r' :: '\n' :: rest) (by simp),
        csv_step_false_crlf]
    | cons g gs =>
      rw [show csvEncodeRow (f :: g :: gs)
          = csvEncodeField f ++ ',' :: csvEncodeRow (g :: gs) from rfl,
        List.append_assoc, List.cons_append,
        csvParseAux_field f r acc
          (',' :: (csvEncodeRow (g :: gs) ++ ('\r' :: '\n' :: rest)))
          (by simp),
        csv_step_false_comma,
        ih (by simp) (r ++ [f]) acc rest]
      simp

lemma csvParseAux_file :
    ∀ (rows : List (List (List Char))), (∀ row ∈ rows, row ≠ []) →
    ∀ (acc : List (List (List Char))),
      csvParseAux false [] [] acc (csvEncodeFile rows) = acc ++ rows := by
  intro rows
  induction rows with
  | nil =>
    intro _ acc
    simp [csvEncodeFile, csvParseAux]
  | cons row rows' ih =>
    intro h acc
    rw [show csvEncodeFile (row :: rows')
        = csvEncodeRow row ++ ('\r' :: '\n' :: csvEncodeFile rows')
        from rfl,
      csvParseAux_record row (h row (List.mem_cons_self row rows'))
        [] acc (csvEncodeFile rows')]
    simp only [List.nil_append]
    rw [ih (fun x hx => h x (List.mem_cons_of_mem row hx)) (acc ++ [row])]
    simp

lemma csv_step_false_lf (f : List Char) (r : List (List Char))
    (acc : List (List (List Char))) (rest : List Char) :
    csvParseAux false f r acc ('\n' :: rest) =
      csvParseAux false [] [] (acc ++ [r ++ [f]]) rest := rfl

lemma univNewlines_cons_ne_cr (c : Char) (hc : ¬ c = '\r')
    (cs : List Char) : univNewlines (c :: cs) = c :: univNewlines cs := by
  cases cs with
  | nil => simp [univNewlines, hc]
  | cons c2 cs2 => simp [univNewlines, hc]

lemma univNewlines_append_nocr :
    ∀ (A B : List Char), '\r' ∉ A →
      univNewlines (A ++ B) = A ++ univNewlines B := by
  intro A
  induction A with
  | nil => intro B h; simp
  | cons c A' ih =>
    intro B h
    have hc : ¬ c = '\r' := by
      intro hcc
      exact h (hcc ▸ List.mem_cons_self c A')
    rw [List.cons_append,
      univNewlines_cons_ne_cr c hc (A' ++ B),
      ih B (fun hx => h (List.mem_cons_of_mem c hx)),
      List.cons_append]

lemma nocr_csvEscape : ∀ (f : List Char), '\r' ∉ f → '\r' ∉ csvEscape f := by
  intro f
  induction f with
  | nil => intro _ h; simp [csvEscape] at h
  | cons c cs ih =>
    intro hf hmem
    have hc : ¬ c = '\r' := by
      intro hcc
      exact hf (hcc ▸ List.mem_cons_self c cs)
    have hcs := fun hx => hf (List.mem_cons_of_mem c hx)
    by_cases hq : c = '"'
    · rw [csvEscape, if_pos hq] at hmem
      rcases List.mem_cons.mp hmem with h1 | h2
      · exact absurd h1.symm (by decide)
      · rcases List.mem_cons.mp h2 with h3 | h4
        · exact absurd h3.symm (by decide)
        · exact ih hcs h4
    · rw [csvEscape, if_neg hq] at hmem
      rcases List.mem_cons.mp hmem with h1 | h2
      · exact hc h1.symm
      · exact ih hcs h2

lemma nocr_csvEncodeField (f : List Char) (hf : '\r' ∉ f) :
    '\r' ∉ csvEncodeField f := by
  intro hmem
  by_cases hq : f.any csvNeedsQuote
  · rw [csvEncodeField, if_pos hq] at hmem
    rcases List.mem_cons.mp hmem with h1 | h2
    · exact absurd h1.symm (by decide)
    · rcases List.mem_append.mp h2 with h3 | h4
      · exact nocr_csvEscape f hf h3
      · rcases List.mem_cons.mp h4 with h5 | h6
        · exact absurd h5.symm (by decide)
        · simp at h6
  · rw [csvEncodeField, if_neg hq] at hmem
    exact hf hmem

lemma nocr_csvEncodeRow :
    ∀ (flds : List (List Char)), (∀ f ∈ flds, '\r' ∉ f) →
      '\r' ∉ csvEncodeRow flds := by
  intro flds
  induction flds with
  | nil => intro _ h; simp [csvEncodeRow] at h
  | cons f fs ih =>
    intro hflds
    cases fs with
    | nil =>
      rw [show csvEncodeRow [f] = csvEncodeField f from rfl]
      exact nocr_csvEncodeField f (hflds f (List.mem_cons_self f []))
    | cons g gs =>
      rw [show csvEncodeRow (f :: g :: gs)
        = csvEncodeField f ++ ',' :: csvEncodeRow (g :: gs) from rfl]
      intro hmem
      rcases List.mem_append.mp hmem with h1 | h2
      · exact nocr_csvEncodeField f
          (hflds f (List.mem_cons_self f (g :: gs))) h1
      · rcases List.mem_cons.mp h2 with h3 | h4
      
        · exact absurd h3.symm (by decide)
        · exact ih (fun x hx => hflds x (List.mem_cons_of_mem f hx)) h4

lemma csvParseAux_recordLF :
    ∀ (flds : List (List Char)), flds ≠ [] →
    ∀ (r : List (List Char)) (acc : List (List (List Char)))
      (rest : List Char),
      csvParseAux false [] r acc (csvEncodeRow flds ++ ('\n' :: rest)) =
        csvParseAux false [] [] (acc ++ [r ++ flds]) rest := by
  intro flds
  induction flds with
  | nil => intro h; exact absurd rfl h
  | cons f fs ih =>
    intro _ r acc rest
    cases fs with
    | nil =>
      rw [show csvEncodeRow [f] = csvEncodeField f from rfl,
        csvParseAux_field f r acc ('\n' :: rest) (by simp),
        csv_step_false_lf]
    | cons g gs =>
      rw [show csvEncodeRow (f :: g :: gs)
          = csvEncodeField f ++ ',' :: csvEncodeRow (g :: gs) from rfl,
        List.append_assoc, List.cons_append,
        csvParseAux_field f r acc
          (',' :: (csvEncodeRow (g :: gs) ++ ('\n' :: rest)))
          (by simp),
        csv_step_false_comma,
        ih (by simp) (r ++ [f]) acc rest]
      simp

lemma csvParse_univ_file :
    ∀ (rows : List (List (List Char))), (∀ row ∈ rows, row ≠ []) →
      (∀ row ∈ rows, ∀ f ∈ row, '\r' ∉ f) →
    ∀ (acc : List (List (List Char))),
      csvParseAux false [] [] acc (univNewlines (csvEncodeFile rows))
        = acc ++ rows := by
  intro rows
  induction rows with
  | nil =>
    intro _ _ acc
    simp [csvEncodeFile, univNewlines, csvParseAux]
  | cons row rows' ih =>
    intro hne hnocr acc
    have hrow_nocr : '\r' ∉ csvEncodeRow row :=
      nocr_csvEncodeRow row
        (fun f hf => hnocr row (List.mem_cons_self row rows') f hf)
    have htrans : univNewlines (csvEncodeFile (row :: rows'))
        = csvEncodeRow row ++ ('\n' :: univNewlines (csvEncodeFile rows')) := by
      rw [show csvEncodeFile (row :: rows')
          = csvEncodeRow row ++ ('\r' :: '\n' :: csvEncodeFile rows')
          from rfl,
        univNewlines_append_nocr _ _ hrow_nocr,
        show univNewlines ('\r' :: '\n' :: csvEncodeFile rows')
          = '\n' :: univNewlines (csvEncodeFile rows') from rfl]
    rw [htrans,
      csvParseAux_recordLF row (hne row (List.mem_cons_self row rows'))
        [] acc (univNewlines (csvEncodeFile rows'))]
    simp only [List.nil_append]
    rw [ih (fun x hx => hne x (List.mem_cons_of_mem row hx))
      (fun x hx => hnocr x (List.mem_cons_of_mem row hx)) (acc ++ [row])]
    simp

/-- C9 counterexample: the ledger files are re-opened for reading without
newline-preservation, so the text layer turns the CRLF inside a quoted
field into LF before the csv module parses it: a row whose field holds
"x\r\ny" is saved faithfully but loads back as "x\ny" — the round-trip is
not the identity on rows containing carriage returns. -/
theorem claim_C9_counterexample :
    ledgerLoad (ledgerSave demoCsvHeaders demoCrRows)
      = (demoCsvHeaders, demoCrRowsLoaded)
    ∧ demoCrRowsLoaded ≠ demoCrRows := by
  exact ⟨by decide, by decide⟩

/-- C9 amended: saving and re-loading round-trips losslessly for every
well-formed ledger whose fields contain no carriage return — `load(save
(headers, rows)) = (headers, rows)` for rows matching the column count,
including empty optional fields and fields needing quoting (commas,
quotes, line feeds) — and `load(save(load(X))) = load(X)` for such ledger
files; the column order is preserved by save.  (Carriage returns inside
fields are translated to line feeds by the text-mode read, as the
counterexample shows.) -/
theorem claim_C9 :
    (∀ (headers : List (List Char)) (rows : List (List (List Char))),
        headers ≠ [] →
        (∀ row ∈ rows, row.length = headers.length) →
        (∀ row ∈ headers :: rows, ∀ f ∈ row, '\r' ∉ f) →
        ledgerLoad (ledgerSave headers rows) = (headers, rows))
    ∧ (∀ (cs : List Char),
        (ledgerLoad cs).1 ≠ [] →
        (∀ row ∈ (ledgerLoad cs).2, row.length = (ledgerLoad cs).1.length) →
        (∀ row ∈ (ledgerLoad cs).1 :: (ledgerLoad cs).2, ∀ f ∈ row,
          '\r' ∉ f) →
        ledgerLoad (ledgerSave (ledgerLoad cs).1 (ledgerLoad cs).2)
          = ledgerLoad cs) := by
  have main : ∀ (headers : List (List Char)) (rows : List (List (List Char))),
      headers ≠ [] →
      (∀ row ∈ rows, row.length = headers.length) →
      (∀ row ∈ headers :: rows, ∀ f ∈ row, '\r' ∉ f) →
      ledgerLoad (ledgerSave headers rows) = (headers, rows) := by
    intro headers rows hh hlen hnocr
    have hne : ∀ row ∈ headers :: rows, row ≠ [] := by
      intro row hrow
      rcases List.mem_cons.mp hrow with h1 | h2
      · rw [h1]; exact hh
      · intro hcon
        have := hlen row h2
        rw [hcon] at this
        simp at this
        exact hh (List.eq_nil_of_length_eq_zero this.symm)
    have hparse : csvParseAux false [] [] []
        (univNewlines (csvEncodeFile (headers :: rows)))
        = headers :: rows := by
      have := csvParse_univ_file (headers :: rows) hne hnocr []
      simpa using this
    simp only [ledgerSave, ledgerLoad, csvParseFile]
    rw [hparse]
  refine ⟨main, ?_⟩
  intro cs h1 h2 h3
  rw [main (ledgerLoad cs).1 (ledgerLoad cs).2 h1 h2 h3]

/-- C9 witness: a two-column ledger whose rows exercise commas, quotes,
line feeds and empty optional fields (and no carriage returns) round-trips
unchanged. -/
theorem claim_C9_witness :
    ledgerLoad (ledgerSave demoCsvHeaders demoCsvRows)
      = (demoCsvHeaders, demoCsvRows) := by
  exact claim_C9.1 demoCsvHeaders demoCsvRows (by decide) (by decide)
    (by decide)


end MigrationCore
